import Mathlib

set_option linter.unnecessarySeqFocus false

/-!
Verification of the signature-driven annotation engine of the typewriter /
typeright repository against its specification.

The development shallowly embeds the relevant Python code:

* `src/typeright/fixes/base.py` (`count_args`, `BaseFixAnnotate.should_skip`,
  `add_py2_annot`, `get_decorators`, `is_method`, `is_generator`,
  `has_return_exprs`, `BaseFixAnnotateFromSignature.process_types`,
  `add_import`, `touch_typing_import`, `patch_imports`, `update_type_names`,
  `type_updater`)
* `src/typeright/fixes/fixer_utils.py` (`type_by_import_stmt`,
  `find_import_info`, `get_import_info`, `decompose_name`,
  `get_unprotected_imports`, `create_import`, `create_type_checking_import`,
  `_get_bottom_of_imports`, `_generate_import_node`, `is_import_stmt`)
* `src/typeright/fixes/fix_annotate_json.py` (`FixAnnotateJson.get_types`)
* `src/typewriter/fixes/fix_annotate_command.py`
  (`FixAnnotateCommand.get_types`, `cleanup`)

lib2to3 parse trees are modelled by `PyTree` (tagged interior nodes with
ordered children, leaves with token kind, literal text and formatting
prefix), and Python strings by Lean `String` (operated on through their
character lists).  Machine-level details that the claims do not touch
(file system access, the lib2to3 parser itself, subprocess execution,
JSON decoding) appear as explicit inputs.
-/

/-! ## Python string primitives -/

/-- Whitespace as stripped by Python's `str.strip` family (ASCII fragment). -/
def isPyWS (c : Char) : Bool := c.isWhitespace

/-- Python `s.lstrip()`. -/
def pyLstrip (s : String) : String := ⟨s.data.dropWhile isPyWS⟩

/-- Python `s.rstrip()`. -/
def pyRstrip (s : String) : String := ⟨(s.data.reverse.dropWhile isPyWS).reverse⟩

/-- Python `s.strip()`. -/
def pyStrip (s : String) : String := pyRstrip (pyLstrip s)

/-- Python `s.startswith(p)`. -/
def pyStartsWith (s p : String) : Bool := p.data.isPrefixOf s.data

/-- Python `c in s` for a single character. -/
def pyHasChar (s : String) (c : Char) : Bool := s.data.contains c

/-- Auxiliary for `pyPartitionNL`: split a character list at the first
newline, returning (before, separator, after). -/
def partNL : List Char → List Char × List Char × List Char
  | [] => ([], [], [])
  | c :: cs =>
    if c = '\n' then ([], ['\n'], cs)
    else
      let r := partNL cs
      (c :: r.1, r.2.1, r.2.2)

/-- Python `s.partition('\n')`. -/
def pyPartitionNL (s : String) : String × String × String :=
  let r := partNL s.data
  (⟨r.1⟩, ⟨r.2.1⟩, ⟨r.2.2⟩)

/-- Auxiliary for `pyRsplitDot1`: split a character list at the last dot.
Returns `none` when no dot occurs. -/
def rsplitDot : List Char → Option (List Char × List Char)
  | [] => none
  | c :: cs =>
    match rsplitDot cs with
    | some (l, r) => some (c :: l, r)
    | none => if c = '.' then some ([], cs) else none

/-- Python `s.rsplit('.', 1)` restricted to the case where a dot is present:
returns (head, tail) with `s = head ++ "." ++ tail` and no dot in `tail`. -/
def pyRsplitDot1 (s : String) : String × String :=
  match rsplitDot s.data with
  | some (l, r) => (⟨l⟩, ⟨r⟩)
  | none => (s, "")

/-- Auxiliary: split a character list at the first occurrence of `sep`. -/
def splitFirst (sep : Char) : List Char → Option (List Char × List Char)
  | [] => none
  | c :: cs =>
    if c = sep then some ([], cs)
    else
      match splitFirst sep cs with
      | some (l, r) => some (c :: l, r)
      | none => none

/-- Python `mod, name = word.split(':')` for a word holding exactly one
colon (the only shape `type_updater` feeds it). -/
def pySplitColon1 (s : String) : String × String :=
  match splitFirst ':' s.data with
  | some (l, r) => (⟨l⟩, ⟨r⟩)
  | none => (s, "")

/-- Python `s.split('.', 1)[0]`. -/
def pySplitDotHead (s : String) : String :=
  match splitFirst '.' s.data with
  | some (l, _) => ⟨l⟩
  | none => s

/-- Word constituents of the `[\w.:]+` regular expression used by
`update_type_names` (ASCII fragment of Python's `\w`). -/
def isWordChar (c : Char) : Bool :=
  c.isAlphanum || c = '_' || c = '.' || c = ':'

/-! ## Token kinds and grammar symbols

Numeric token kinds follow CPython's `token` module; grammar-symbol numbers
(`syms`) are all above 256, as in lib2to3 — only their distinctness and the
`> 256` test matter to the embedded code. -/

namespace tok

def NAME : Nat := 1
def NUMBER : Nat := 2
def STRING : Nat := 3
def NEWLINE : Nat := 4
def INDENT : Nat := 5
def DEDENT : Nat := 6
def LPAR : Nat := 7
def RPAR : Nat := 8
def COLON : Nat := 11
def COMMA : Nat := 12
def STAR : Nat := 16
def EQUAL : Nat := 22
def DOT : Nat := 23
def DOUBLESTAR : Nat := 36
def AT : Nat := 50

end tok

namespace syms

def file_input : Nat := 257
def funcdef : Nat := 258
def classdef : Nat := 259
def decorated : Nat := 260
def decorator : Nat := 261
def decorators : Nat := 262
def suite : Nat := 263
def simple_stmt : Nat := 264
def import_name : Nat := 265
def import_from : Nat := 266
def dotted_name : Nat := 267
def dotted_as_name : Nat := 268
def dotted_as_names : Nat := 269
def import_as_name : Nat := 270
def import_as_names : Nat := 271
def if_stmt : Nat := 272
def yield_expr : Nat := 273
def return_stmt : Nat := 274
def parameters : Nat := 275
def typedargslist : Nat := 276
def arith_expr : Nat := 277

end syms

/-! ## The parse-tree model -/

/-- A lib2to3 parse tree: interior `node`s carry a grammar-symbol tag and
ordered children; `leaf`s carry a token kind, the literal token text and
the formatting prefix (whitespace and comments preceding the token). -/
inductive PyTree where
  | node (typ : Nat) (children : List PyTree)
  | leaf (typ : Nat) (value : String) (pfx : String)

namespace PyTree

/-- The tag of a tree (`node.type` / `leaf.type`). -/
def typ : PyTree → Nat
  | node t _ => t
  | leaf t _ _ => t

/-- `node.children` (a leaf has no children). -/
def childrenOf : PyTree → List PyTree
  | node _ cs => cs
  | leaf _ _ _ => []

/-- `leaf.value` (never read on interior nodes by the embedded code). -/
def valueOf : PyTree → String
  | node _ _ => ""
  | leaf _ v _ => v

mutual

/-- `node.prefix`: a leaf's own prefix, an interior node's first leaf's
prefix (lib2to3 `Node.prefix`), empty for a childless node. -/
def prefixOf : PyTree → String
  | leaf _ _ p => p
  | node _ cs => prefixOfList cs

/-- `prefixOf` on the first element of a child list. -/
def prefixOfList : List PyTree → String
  | [] => ""
  | c :: _ => prefixOf c

end

mutual

/-- lib2to3 `Node.prefix = s` / `Leaf.prefix = s`: setting a node's prefix
sets its first leaf's prefix (no-op on a childless node). -/
def setPrefix (s : String) : PyTree → PyTree
  | leaf t v _ => leaf t v s
  | node t cs => node t (setPrefixList s cs)

/-- `setPrefix` on the first element of a child list. -/
def setPrefixList (s : String) : List PyTree → List PyTree
  | [] => []
  | c :: cs => setPrefix s c :: cs

end

mutual

/-- `str(node)`: concatenation of prefix and token text over all leaves. -/
def str : PyTree → String
  | leaf _ v p => p ++ v
  | node _ cs => strList cs

/-- `str` joined over a child list. -/
def strList : List PyTree → String
  | [] => ""
  | c :: cs => str c ++ strList cs

end

mutual

/-- `node.pre_order()`: the node followed by its children's pre-orders. -/
def preOrder : PyTree → List PyTree
  | leaf t v p => [leaf t v p]
  | node t cs => node t cs :: preOrderList cs

/-- `preOrder` concatenated over a child list. -/
def preOrderList : List PyTree → List PyTree
  | [] => []
  | c :: cs => preOrder c ++ preOrderList cs

end

end PyTree

/-! ## `count_args` (base.py lines 126-172)

Counts arguments of `results['args']` and checks for `self`/`cls`,
`*args` and `**kwds`.  The scan state mirrors the Python loop's local
variables. -/

/-- One step of the `count_args` loop over the children of the argument
node.  State: `(count, selfish, star, starstar, skip, previous_token_is_star)`. -/
def countArgsAux :
    List PyTree → Nat → Bool → Bool → Bool → Bool → Bool →
    Nat × Bool × Bool × Bool
  | [], count, selfish, star, starstar, _, _ => (count, selfish, star, starstar)
  | child :: rest, count, selfish, star, starstar, skip, prevStar =>
    if skip then
      countArgsAux rest count selfish star starstar false prevStar
    else
      match child with
      | .leaf t v _ =>
        if t = tok.STAR then
          countArgsAux rest count selfish star starstar false true
        else if t = tok.DOUBLESTAR then
          countArgsAux rest count selfish star true false false
        else if t = tok.NAME then
          let selfish := if count = 0 && (v = "self" || v = "cls") then true else selfish
          let star := if prevStar then true else star
          countArgsAux rest (count + 1) selfish star starstar false false
        else if t = tok.EQUAL then
          countArgsAux rest count selfish star starstar true false
        else
          countArgsAux rest count selfish star starstar false false
      | .node _ _ =>
        -- interior nodes (default-value expressions) fall through the
        -- `isinstance(child, Leaf)` test: nothing changes, including
        -- `previous_token_is_star`
        countArgsAux rest count selfish star starstar false prevStar

/-- `count_args(node, results)`: the argument `args` is `results.get('args')`
(a node with several children, a single leaf, or absent). -/
def countArgs (args : Option PyTree) : Nat × Bool × Bool × Bool :=
  let children :=
    match args with
    | some (.node _ cs) => cs
    | some (.leaf t v p) => [.leaf t v p]
    | none => []
  countArgsAux children 0 false false false false false

/-! ## Tree predicates of `BaseFixAnnotate` -/

/-- `is_method(node)` (base.py lines 565-574): walk the parent chain,
`True` at the first `classdef`, `False` at the first `funcdef`.  The chain
of ancestor tags, innermost first, stands in for the parent pointers. -/
def isMethodChain : List Nat → Bool
  | [] => false
  | t :: rest =>
    if t = syms.classdef then true
    else if t = syms.funcdef then false
    else isMethodChain rest

/-- The compiled pattern `yield_expr< 'yield' [any] >`. -/
def matchYieldExpr (t : PyTree) : Bool :=
  t.typ = syms.yield_expr &&
    match t.childrenOf with
    | [.leaf _ v _] => v = "yield"
    | [.leaf _ v _, _] => v = "yield"
    | _ => false

mutual

/-- `is_generator(node)` (base.py lines 597-606): look for `yield [expr]`
below `node`, not descending into nested `funcdef`/`classdef`. -/
def isGenerator (t : PyTree) : Bool :=
  matchYieldExpr t ||
    match t with
    | .leaf _ _ _ => false
    | .node _ cs => isGeneratorList cs

/-- The child loop of `is_generator`. -/
def isGeneratorList : List PyTree → Bool
  | [] => false
  | c :: cs =>
    (decide (c.typ ≠ syms.funcdef ∧ c.typ ≠ syms.classdef) && isGenerator c) ||
      isGeneratorList cs

end

/-- The compiled pattern `return_stmt< 'return' any >`. -/
def matchReturnExpr (t : PyTree) : Bool :=
  t.typ = syms.return_stmt &&
    match t.childrenOf with
    | [.leaf _ v _, _] => v = "return"
    | _ => false

mutual

/-- `has_return_exprs(node)` (base.py lines 579-592): look for
`return expr` below `node`, not descending into nested
`funcdef`/`classdef`. -/
def hasReturnExprs (t : PyTree) : Bool :=
  matchReturnExpr t ||
    match t with
    | .leaf _ _ _ => false
    | .node _ cs => hasReturnExprsList cs

/-- The child loop of `has_return_exprs`. -/
def hasReturnExprsList : List PyTree → Bool
  | [] => false
  | c :: cs =>
    (decide (c.typ ≠ syms.funcdef ∧ c.typ ≠ syms.classdef) && hasReturnExprs c) ||
      hasReturnExprsList cs

end

/-! ## `get_decorators` (base.py lines 540-563) -/

/-- Match of the compiled pattern
`decorated< (d=decorator | decorators< dd=decorator+ >) funcdef >` against
a function definition's parent, returning the matched decorator nodes. -/
def matchDecorated (p : PyTree) : Option (List PyTree) :=
  match p with
  | .node t [c, f] =>
    if t = syms.decorated && f.typ == syms.funcdef then
      if c.typ = syms.decorator then some [c]
      else if c.typ = syms.decorators && !c.childrenOf.isEmpty &&
          c.childrenOf.all (fun d => d.typ == syms.decorator) then
        some c.childrenOf
      else none
    else none
  | _ => none

/-- `get_decorators(node)`: for each matched decorator, append the value of
every leaf child of kind NAME.  `parent` is `node.parent`
(`none` models a tree root). -/
def getDecorators (parent : Option PyTree) : List String :=
  match parent with
  | none => []
  | some p =>
    match matchDecorated p with
    | none => []
    | some ds =>
      ds.foldl (fun acc d =>
        acc ++ d.childrenOf.filterMap (fun c =>
          match c with
          | .leaf t v _ => if t = tok.NAME then some v else none
          | .node _ _ => none)) []

/-! ## Import scanning (fixer_utils.py)

`get_import_info` results are modelled as an association list from package
key to the list of (entry, binding-name) pairings; Python's `set` of
pairings becomes an insertion-ordered duplicate-free list (order is
irrelevant to every use).  The `None` dictionary keys produced by
ungrammatical trees are dropped: no string-keyed lookup and no
string-membership test can ever observe them. -/

/-- A dummy tree used for (unreachable) out-of-range child accesses. -/
def dummyTree : PyTree := PyTree.leaf 0 "" ""

/-- `str(n).strip()` on a subtree. -/
def strStrip (t : PyTree) : String := pyStrip (PyTree.str t)

/-- lib2to3 `fixer_util.is_import`. -/
def isImport (t : PyTree) : Bool :=
  t.typ = syms.import_name || t.typ = syms.import_from

/-- `is_import_stmt` (fixer_utils.py lines 147-149). -/
def isImportStmt (t : PyTree) : Bool :=
  t.typ = syms.simple_stmt && !t.childrenOf.isEmpty &&
    isImport (t.childrenOf.headD dummyTree)

/-- `decompose_name` (fixer_utils.py lines 456-483): split a
`dotted_name`-or-`NAME` node into (package, name, full string);
`none` models the all-`None` result for childless non-NAME input. -/
def decomposeName (t : PyTree) : Option (String × String × String) :=
  match t with
  | .leaf ty v _ => if ty = tok.NAME then some ("", v, v) else none
  | .node _ [] => none
  | .node _ cs =>
    let nameNode := cs.getLastD dummyTree
    let packageNodes := cs.dropLast.dropLast
    let name := strStrip nameNode
    let package := packageNodes.foldl (fun acc n => acc ++ strStrip n) ""
    let full := cs.foldl (fun acc n => acc ++ strStrip n) ""
    some (package, name, full)

/-- `handle_name` inside `get_import_info` (fixer_utils.py lines 510-523). -/
def handleName (t : PyTree) : Option (String × String × String) :=
  if t.typ = syms.dotted_as_name || t.typ = syms.import_as_name then
    match t.childrenOf.get? 0, t.childrenOf.get? 2 with
    | some nameNode, some bindingNode =>
      let binding := strStrip bindingNode
      if nameNode.typ = syms.dotted_name || nameNode.typ = tok.NAME then
        match decomposeName nameNode with
        | some (p, i, _) => some (p, i, binding)
        | none => none
      else none
    | _, _ => none
  else decomposeName t

/-- Association-list model of the `imports` dictionary:
`setdefault(key, set()).add(pair)`. -/
def dictAdd (d : List (String × List (String × String))) (key : String)
    (pair : String × String) : List (String × List (String × String)) :=
  match d with
  | [] => [(key, [pair])]
  | (k, ps) :: rest =>
    if k = key then
      (k, if ps.contains pair then ps else ps ++ [pair]) :: rest
    else (k, ps) :: dictAdd rest key pair

/-- `imports.get(key)`. -/
def dictGet (d : List (String × List (String × String))) (key : String) :
    Option (List (String × String)) :=
  (d.find? (fun e => e.1 = key)).map (·.2)

/-- `imports.keys()`. -/
def dictKeys (d : List (String × List (String × String))) : List String :=
  d.map (·.1)

/-- `get_import_info(node)` (fixer_utils.py lines 487-557): the package ↦
pairings map of one import statement. -/
def getImportInfo (t : PyTree) : List (String × List (String × String)) :=
  if t.typ = syms.import_name then
    match t.childrenOf.get? 1 with
    | none => []
    | some asName =>
      let asNames :=
        if asName.typ = syms.dotted_as_names || asName.typ = syms.import_as_names then
          asName.childrenOf.filter (fun c => strStrip c ≠ ",")
        else [asName]
      asNames.foldl (fun d c =>
        match handleName c with
        | some (p, i, b) => dictAdd d p (i, b)
        | none => d) []
  else if t.typ = syms.import_from then
    match t.childrenOf with
    | _ :: pkgNode :: _ :: c3 :: rest =>
      let package := strStrip pkgNode
      let ian? := if strStrip c3 = "(" then rest.head? else some c3
      match ian? with
      | none => []
      | some ian =>
        let asNames :=
          if ian.typ = syms.import_as_names then
            ian.childrenOf.filter (fun c => strStrip c ≠ ",")
          else [ian]
        asNames.foldl (fun d c =>
          match handleName c with
          | some (_, i, b) => dictAdd d package (i, b)
          | none => d) []
    | _ => []
  else []

mutual

/-- `find_import_info(package, name, node)` (fixer_utils.py lines 421-453):
scan `node.children` for an import statement binding `name` out of
`package`. -/
def findImportInfo (package name : String) : PyTree →
    Option (String × String × String)
  | .leaf _ _ _ => none
  | .node _ cs => findImportInfoList package name cs

/-- The loop of `find_import_info` over a child list.  Finding an import
statement whose map lacks `package` aborts the scan of the current child
list (the source's early `return None`); `simple_stmt` children are
scanned recursively. -/
def findImportInfoList (package name : String) :
    List PyTree → Option (String × String × String)
  | [] => none
  | child :: rest =>
    if isImport child then
      match dictGet (getImportInfo child) package with
      | none => none
      | some pairs =>
        match pairs.find? (fun x => x.1 = name) with
        | some pr => some (pr.1, package, pr.2)
        | none => findImportInfoList package name rest
    else if child.typ = syms.simple_stmt then
      match findImportInfo package name child with
      | none => findImportInfoList package name rest
      | some r => some r
    else findImportInfoList package name rest

end

/-- `type_by_import_stmt(package, name, node)` (fixer_utils.py lines
103-144); `root` is `find_root(node)`. -/
def typeByImportStmt (package name : String) (root : PyTree) : Option String :=
  match findImportInfo package name root with
  | some info => some info.2.2
  | none =>
    let pm :=
      if pyHasChar package '.' then pyRsplitDot1 package
      else ("", package)
    match findImportInfo pm.1 pm.2 root with
    | some minfo => some (minfo.2.2 ++ "." ++ name)
    | none => none

/-- `get_unprotected_imports(root)` (fixer_utils.py lines 331-345).  NOTE:
the source rebinds `imports = set(ret.imports.keys())` on every import
statement instead of accumulating, so only the keys of the *last*
top-level import statement survive; the embedding reproduces this
faithfully. -/
def getUnprotectedImports (root : PyTree) : List String :=
  root.childrenOf.foldl (fun acc child =>
    if isImportStmt child then
      dictKeys (getImportInfo (child.childrenOf.headD dummyTree))
    else acc) []

/-! ## Import creation (fixer_utils.py lines 152-328) -/

/-- `Newline()` from lib2to3 fixer_util. -/
def newlineLeaf : PyTree := PyTree.leaf tok.NEWLINE "\n" ""

/-- Auxiliary for `pySplitDots`: split a character list at every dot
(`acc` is the current segment, reversed). -/
def splitDotsAux (acc : List Char) : List Char → List String
  | [] => [⟨acc.reverse⟩]
  | c :: cs =>
    if c = '.' then (⟨acc.reverse⟩ : String) :: splitDotsAux [] cs
    else splitDotsAux (c :: acc) cs

/-- Python `name.rsplit('.')` (equivalently `split('.')`). -/
def pySplitDots (s : String) : List String := splitDotsAux [] s.data

/-- The `DottedName` helper of `_generate_import_node`. -/
def dottedNameNode (name : String) (pfxS : String) : PyTree :=
  match pySplitDots name with
  | [] => PyTree.leaf tok.NAME name pfxS
  | [_] => PyTree.leaf tok.NAME name pfxS
  | first :: rest =>
    let children :=
      PyTree.leaf tok.NAME first "" ::
        rest.flatMap (fun entry =>
          [PyTree.leaf tok.DOT "." "", PyTree.leaf tok.NAME entry ""])
    PyTree.setPrefix pfxS (PyTree.node syms.dotted_name children)

/-- `_generate_import_node(package, name, prefix)` (lines 152-179). -/
def generateImportNode (package name : String) (pfxS : String) : PyTree :=
  if package = "" then
    PyTree.node syms.import_name
      [PyTree.leaf tok.NAME "import" pfxS, dottedNameNode name " "]
  else
    PyTree.node syms.import_from
      [PyTree.leaf tok.NAME "from" pfxS,
       dottedNameNode package " ",
       PyTree.leaf tok.NAME "import" " ",
       PyTree.leaf tok.NAME name " "]

/-- Python `list.insert(i, x)` on a node's children
(`root.insert_child(i, x)`). -/
def insertChild (t : PyTree) (i : Nat) (x : PyTree) : PyTree :=
  match t with
  | .node ty cs => .node ty (cs.take i ++ x :: cs.drop i)
  | .leaf ty v p => .leaf ty v p

/-- Replace child `i` of a node. -/
def replaceChild (t : PyTree) (i : Nat) (x : PyTree) : PyTree :=
  match t with
  | .node ty cs => .node ty (cs.set i x)
  | .leaf ty v p => .leaf ty v p

/-- `_get_bottom_of_imports(root)` (lines 182-217): position after the
first block of import statements, the position after a leading docstring
when there is no import, the file start otherwise. -/
def bottomOfImports (root : PyTree) : Nat :=
  let cs := root.childrenOf
  let ip :=
    match cs.findIdx? isImportStmt with
    | none => 0
    | some idx =>
      let tl := cs.drop idx
      let off :=
        match tl.findIdx? (fun n => !isImportStmt n) with
        | some o => o
        | none => tl.length - 1
      idx + off
  if ip = 0 then
    match cs.findIdx? (fun n =>
        n.typ = syms.simple_stmt &&
          (match n.childrenOf.head? with
           | some h => h.typ = tok.STRING
           | none => false)) with
    | some i => i + 1
    | none => 0
  else ip

/-- `create_import(package, name, node)` (lines 220-240). -/
def createImport (package name : String) (root : PyTree) : PyTree :=
  insertChild root (bottomOfImports root)
    (PyTree.node syms.simple_stmt [generateImportNode package name "", newlineLeaf])

/-- `is_type_checking_decl` inside `create_type_checking_import`
(lines 293-302). -/
def isTypeCheckingDecl (n : PyTree) : Bool :=
  n.typ = syms.if_stmt &&
    (let s := strStrip (n.childrenOf.getD 1 dummyTree)
     s = "typing.TYPE_CHECKING" || s = "TYPE_CHECKING")

/-- `_new_type_check_with_import(package, name, root, insert_pos)`
(lines 246-276). -/
def newTypeCheckWithImport (package name : String) (root : PyTree)
    (insertPos : Nat) : PyTree :=
  let typeCheckNode :=
    PyTree.node syms.if_stmt
      [PyTree.leaf tok.NAME "if" "",
       PyTree.leaf tok.NAME "TYPE_CHECKING" " ",
       PyTree.leaf tok.COLON ":" "",
       PyTree.node syms.suite
         [PyTree.leaf tok.NEWLINE "\n" "",
          PyTree.leaf tok.INDENT "    " "",
          PyTree.node syms.simple_stmt
            [generateImportNode package name "", newlineLeaf],
          PyTree.leaf tok.DEDENT "" ""]]
  let root := insertChild root insertPos typeCheckNode
  insertChild root insertPos
    (PyTree.node syms.simple_stmt
      [generateImportNode "typing" "TYPE_CHECKING" "", newlineLeaf])

/-- `create_type_checking_import(package, name, node)` (lines 279-328). -/
def createTypeCheckingImport (package name : String) (root : PyTree) : PyTree :=
  match root.childrenOf.findIdx? isTypeCheckingDecl with
  | none => newTypeCheckWithImport package name root (bottomOfImports root)
  | some idx =>
    let tcNode := root.childrenOf.getD idx dummyTree
    let tcSuite := tcNode.childrenOf.getD 3 dummyTree
    let insertPos := tcSuite.childrenOf.length - 1
    let newSuite :=
      insertChild tcSuite insertPos
        (PyTree.node syms.simple_stmt
          [generateImportNode package name "    ", newlineLeaf])
    replaceChild root idx (replaceChild tcNode 3 newSuite)

/-! ## `BaseFixAnnotateFromSignature` import bookkeeping (base.py) -/

/-- The per-fixer pending-import state: `self.needed_imports` and
`self.needed_type_checking_imports`, Python sets of (module, name) pairs
modelled as insertion-ordered duplicate-free lists. -/
structure FixState where
  needed : List (String × String)
  neededTC : List (String × String)
deriving DecidableEq

/-- An empty `FixState` (as built by `__init__`). -/
def FixState.empty : FixState := ⟨[], []⟩

/-- `set.add` on the pair lists. -/
def insertPair (l : List (String × String)) (p : String × String) :
    List (String × String) :=
  if l.contains p then l else l ++ [p]

/-- `BaseFixAnnotateFromSignature.safe_imports`. -/
def safeImports : List String := ["typing"]

/-- `add_import(mod, name, in_type_checking)` (base.py lines 630-645);
`cm` is `self.current_module()`. -/
def addImport (cm mod name : String) (inTypeChecking : Bool) (st : FixState) :
    FixState :=
  if mod = cm then st
  else if inTypeChecking && !safeImports.contains mod then
    { st with neededTC := insertPair st.neededTC (mod, name) }
  else
    { st with needed := insertPair st.needed (mod, name) }

/-- `typing.__all__` of the host interpreter (CPython). -/
def typingAll : List String :=
  ["AbstractSet", "Any", "AnyStr", "AsyncContextManager", "AsyncGenerator",
   "AsyncIterable", "AsyncIterator", "Awaitable", "ByteString", "Callable",
   "ChainMap", "ClassVar", "Collection", "Container", "ContextManager",
   "Coroutine", "Counter", "DefaultDict", "Deque", "Dict", "Final",
   "FrozenSet", "Generator", "Generic", "Hashable", "IO", "ItemsView",
   "Iterable", "Iterator", "KeysView", "List", "Literal", "Mapping",
   "MappingView", "Match", "MutableMapping", "MutableSequence", "MutableSet",
   "NamedTuple", "NewType", "NoReturn", "Optional", "OrderedDict", "Pattern",
   "Protocol", "Reversible", "Sequence", "Set", "Sized", "SupportsAbs",
   "SupportsBytes", "SupportsComplex", "SupportsFloat", "SupportsIndex",
   "SupportsInt", "SupportsRound", "Text", "TextIO", "Tuple", "Type",
   "TypedDict", "TypeVar", "Union", "TYPE_CHECKING", "cast", "final",
   "get_args", "get_origin", "get_type_hints", "no_type_check",
   "no_type_check_decorator", "overload", "runtime_checkable"]

/-- `touch_typing_import(word, node)` (base.py lines 647-661). -/
def touchTypingImport (cm : String) (root : PyTree) (word : String)
    (st : FixState) : FixState :=
  if typingAll.contains word then
    if (typeByImportStmt "typing" word root).isNone then
      addImport cm "typing" word false st
    else st
  else st

/-- `type_updater(match, node)` (base.py lines 765-805): resolve one
`[\w.:]+` word of a type string, returning the text to write and the
updated pending-import state. -/
def typeUpdater (cm : String) (root : PyTree) (word : String) (st : FixState) :
    String × FixState :=
  if word = "..." then (word, st)
  else if !pyHasChar word '.' && !pyHasChar word ':' then
    (word, touchTypingImport cm root word st)
  else
    let mnt :=
      if pyHasChar word ':' then
        let mn := pySplitColon1 word
        (mn.1, mn.2, pySplitDotHead mn.2)
      else
        let mn := pyRsplitDot1 word
        (mn.1, mn.2, mn.2)
    let mod := mnt.1
    let name := mnt.2.1
    let toImport := mnt.2.2
    match typeByImportStmt mod toImport root with
    | some result => (result, st)
    | none =>
      let inTypeChecking := !(getUnprotectedImports root).contains mod
      (name, addImport cm mod toImport inTypeChecking st)

/-- `update_type_names(type_str, node)` (base.py lines 758-763): the
`re.sub(r'[\w.:]+', ...)` scan, with `acc` the word run being gathered.
Runs of word constituents are rewritten by `typeUpdater`; other characters
are copied. -/
def updateTypeNamesAux (cm : String) (root : PyTree) :
    List Char → List Char → FixState → List Char × FixState
  | acc, [], st =>
    match acc with
    | [] => ([], st)
    | _ :: _ =>
      let r := typeUpdater cm root ⟨acc⟩ st
      (r.1.data, r.2)
  | acc, c :: cs, st =>
    if isWordChar c then
      updateTypeNamesAux cm root (acc ++ [c]) cs st
    else
      match acc with
      | [] =>
        let r := updateTypeNamesAux cm root [] cs st
        (c :: r.1, r.2)
      | _ :: _ =>
        let w := typeUpdater cm root ⟨acc⟩ st
        let r := updateTypeNamesAux cm root [] cs w.2
        (w.1.data ++ c :: r.1, r.2)

/-- `update_type_names` on a whole type string. -/
def updateTypeNames (cm : String) (root : PyTree) (typeStr : String)
    (st : FixState) : String × FixState :=
  let r := updateTypeNamesAux cm root [] typeStr.data st
  (⟨r.1⟩, r.2)

/-- Strict lexicographic order on strings by character code, as Python
compares strings. -/
def strLtB (a b : String) : Bool :=
  go a.data b.data
where
  go : List Char → List Char → Bool
  | [], [] => false
  | [], _ :: _ => true
  | _ :: _, [] => false
  | c :: cs, d :: ds => c.val < d.val || (c = d && go cs ds)

/-- Python tuple order on (module, name) pairs. -/
def pairLe (p q : String × String) : Bool :=
  strLtB p.1 q.1 || (p.1 = q.1 && (strLtB p.2 q.2 || p.2 = q.2))

/-- Insert into a `pairLe`-sorted list. -/
def insertPairLe (x : String × String) :
    List (String × String) → List (String × String)
  | [] => [x]
  | y :: ys => if pairLe x y then x :: y :: ys else y :: insertPairLe x ys

/-- Python `sorted(...)` on a duplicate-free set of pairs (insertion sort;
the result is the unique sorted arrangement, so any sorting algorithm
agrees). -/
def pySortedPairs (l : List (String × String)) : List (String × String) :=
  l.foldr insertPairLe []

/-- `patch_imports(types, node)` (base.py lines 663-671): flush the
pending imports into the tree, ordinary ones first, then TYPE_CHECKING
ones; the state is cleared afterwards. -/
def patchImports (st : FixState) (root : PyTree) : PyTree × FixState :=
  let root := (pySortedPairs st.needed).foldl
    (fun r p => createImport p.1 p.2 r) root
  let root := (pySortedPairs st.neededTC).foldl
    (fun r p => createTypeCheckingImport p.1 p.2 r) root
  (root, FixState.empty)

/-! ## `should_skip` (base.py lines 202-314) -/

/-- The `'# type:'`-prefix test applied by `should_skip` to every node of a
`pre_order` traversal (`ch.prefix.lstrip().startswith('# type:')`). -/
def hasTypeCommentPrefixTree (t : PyTree) : Bool :=
  (PyTree.preOrder t).any (fun ch =>
    pyStartsWith (pyLstrip (PyTree.prefixOf ch)) "# type:")

mutual

/-- The Python-3-annotation scan of `should_skip` (lines 286-312), as
recursion over the remaining argument tokens.  Bare iterator exhaustion at
an unguarded `next` (impossible for trees the grammar produces) is modelled
as `false`. -/
def py3Scan : List PyTree → Bool
  | [] => false
  | ch :: rest =>
    if ch.typ = tok.STAR then
      match rest with
      | [] => false
      | ch2 :: rest2 =>
        if ch2.typ = tok.COMMA then py3Scan rest2
        else py3ScanItem ch2 rest2
    else if ch.typ = tok.DOUBLESTAR then
      match rest with
      | [] => false
      | ch2 :: rest2 => py3ScanItem ch2 rest2
    else py3ScanItem ch rest
termination_by l => l.length + 1
decreasing_by all_goals (simp; try omega)

/-- One argument position: an interior node (`ch.type > 256`) or a
following `:` mean an annotation; `=` skips the default expression and the
comma; iterator exhaustion inside the `try` breaks the loop (`false`). -/
def py3ScanItem (ch : PyTree) (rest : List PyTree) : Bool :=
  if ch.typ > 256 then true
  else
    match rest with
    | [] => false
    | c2 :: rest2 =>
      if c2.typ = tok.COLON then true
      else if c2.typ = tok.EQUAL then
        match rest2 with
        | _ :: _ :: rest3 => py3Scan rest3
        | _ => false
      else py3Scan rest2
termination_by rest.length + 1
decreasing_by all_goals (simp; try omega)

end

/-- `should_skip(node, results)` (base.py lines 202-314): annotation budget
exhausted, a `# type:` comment on the parameters, the arguments or the
suite, or Python-3 inline annotations on the arguments. -/
def shouldSkip (counter : Option Int) (parametersNode argsNode : Option PyTree)
    (suiteChildren : List PyTree) : Bool :=
  (match counter with | some c => decide (c ≤ 0) | none => false) ||
  (match parametersNode with
   | some p => hasTypeCommentPrefixTree p
   | none => false) ||
  (match argsNode with
   | some a => hasTypeCommentPrefixTree a
   | none => false) ||
  suiteChildren.any (fun ch =>
    pyStartsWith (pyLstrip (PyTree.prefixOf ch)) "# type:") ||
  py3Scan (match argsNode with | some a => a.childrenOf | none => [])

/-! ## `add_py2_annot` (base.py lines 410-460) -/

/-- `is_type_comment(comment)`: the `TYPE_REG` regular expression
`\s*#\s*type:.*` anchored at the start. -/
def isTypeComment (s : String) : Bool :=
  match s.data.dropWhile isPyWS with
  | '#' :: rest => ("type:".data).isPrefixOf (rest.dropWhile isPyWS)
  | _ => false

/-- `use_py2_long_form(argtypes, short_str, degen_str)`
(base.py lines 410-418). -/
def usePy2LongForm (commentStyle : String) (argtypes : List String)
    (shortStr degenStr : String) : Bool :=
  if commentStyle = "single" then false
  else if commentStyle = "multi" then false
  else
    (shortStr.length > 64 || argtypes.length > 5) &&
      decide (shortStr.length > degenStr.length)

/-- The diagnostic of the one-line-function branch (line 459). -/
def oneLinerMsg (filename : String) (lineno : Int) : String :=
  filename ++ ":" ++ toString lineno ++
    ": cannot insert annotation for one-line function"

/-- Result of `add_py2_annot`: the new suite children, whether the type
comment was written, and emitted diagnostics. -/
structure Py2AnnotResult where
  children : List PyTree
  annotated : Bool
  logs : List String

/-- `add_py2_annot(argtypes, restype, node, results)` (base.py lines
420-460) acting on the suite children `results['suite'][0].children`.
`indentation` is `find_indentation(node)`.  The long form's companion
`insert_long_form` (lines 462-521) rewrites only parameter-list tokens,
which are not part of the suite state modelled here; the summary comment
it leaves in the suite is the degenerate string, as in the source. -/
def addPy2Annot (argtypes : List String) (restype : String)
    (children0 : List PyTree) (indentation : String)
    (commentStyle filename : String) (lineno : Int) : Py2AnnotResult :=
  -- lines 427-434: restructure a compacted one-line body
  let children :=
    match children0 with
    | [] => children0
    | c0 :: rest =>
      if c0.typ ≠ tok.NEWLINE ∧ pyStrip (PyTree.prefixOf c0) = "" then
        PyTree.leaf tok.NEWLINE "\n" "" ::
          PyTree.leaf tok.INDENT (indentation ++ "    ") "" ::
          (PyTree.setPrefix "" c0 :: rest) ++ [PyTree.leaf tok.DEDENT "" ""]
      else children0
  match children with
  | c0 :: c1 :: rest2 =>
    if c1.typ = tok.INDENT then
      let degenStr := "(...) -> " ++ restype
      let shortStr := "(" ++ String.intercalate ", " argtypes ++ ") -> " ++ restype
      let annot0 :=
        if usePy2LongForm commentStyle argtypes shortStr degenStr then degenStr
        else shortStr
      let parts := pyPartitionNL (PyTree.prefixOf c1)
      let comment := pyRstrip parts.1 ++ parts.2.1
      let annotStr := "# type: " ++ annot0 ++ "\n"
      if comment = annotStr then ⟨c0 :: c1 :: rest2, false, []⟩
      else
        let annotStr :=
          if comment ≠ "" ∧ ¬isTypeComment comment then annotStr ++ comment
          else annotStr
        let c1' := PyTree.setPrefix (PyTree.valueOf c1 ++ annotStr ++ parts.2.2) c1
        ⟨c0 :: c1' :: rest2, true, []⟩
    else ⟨c0 :: c1 :: rest2, false, [oneLinerMsg filename lineno]⟩
  | cs => ⟨cs, false, [oneLinerMsg filename lineno]⟩

/-! ## `process_types` (base.py lines 714-756) -/

/-- A function-definition site, as `process_types` consumes it:
`argsOpt` is `results.get('args')`, `ancestors` the tags on the parent
chain (innermost first, for `is_method`), `body` the `funcdef` node (for
`is_generator` / `has_return_exprs`), `root` the whole file tree and
`currentModule` the module being rewritten (for import resolution). -/
structure Site where
  argsOpt : Option PyTree
  ancestors : List Nat
  body : PyTree
  root : PyTree
  currentModule : String
  filename : String
  lineno : Int

/-- Lines 720-728: reset the `star`/`starstar` flags when the signature
already carries a `*`/`**` entry, then append `*Any` / `**Any`. -/
def addVariadicTypes (star starstar : Bool) (argTypes : List String) :
    List String × Bool × Bool :=
  let flags := argTypes.foldl
    (fun (p : Bool × Bool) a =>
      if pyStartsWith a "**" then (p.1, false)
      else if pyStartsWith a "*" then (false, p.2)
      else p)
    (star, starstar)
  let argTypes := if flags.1 then argTypes ++ ["*Any"] else argTypes
  let argTypes := if flags.2 then argTypes ++ ["**Any"] else argTypes
  (argTypes, flags)

/-- Lines 729-737: insert `Any` for an omitted `self`/`cls` of a free
function, or drop the receiver from the count for a method. -/
def adjustSelf (selfish isMeth : Bool) (count : Int) (argTypes : List String) :
    List String × Int :=
  if selfish ∧ (argTypes.length : Int) = count - 1 then
    if isMeth then (argTypes, count - 1) else ("Any" :: argTypes, count)
  else (argTypes, count)

/-- Lines 745-747: widen a recorded `None` return to `Optional[Any]` when
the body has a `return expr`. -/
def widenNoneReturn (hasRet : Bool) (retType : String) : String :=
  if retType = "None" ∧ hasRet then "Optional[Any]" else retType

/-- Lines 748-754: wrap a generator's return type in `Iterator[...]`,
first unwrapping `Optional[...]`.  The source asserts
`ret_type[-1] == ']'` before slicing, which holds of every
`Optional[...]`-shaped string; the slice `ret_type[9:-1]` is taken as in
the source. -/
def wrapGenerator (isGen : Bool) (retType : String) : String :=
  if isGen ∧ ¬(retType = "Iterator" ∨ pyStartsWith retType "Iterator[" = true) then
    let retType :=
      if pyStartsWith retType "Optional[" then
        (⟨(retType.data.drop 9).dropLast⟩ : String)
      else retType
    "Iterator[" ++ retType ++ "]"
  else retType

/-- `[self.update_type_names(t, node) for t in arg_types]`, threading the
pending-import state left to right. -/
def mapUpdateTypeNames (cm : String) (root : PyTree) :
    List String → FixState → List String × FixState
  | [], st => ([], st)
  | t :: ts, st =>
    let r := updateTypeNames cm root t st
    let rest := mapUpdateTypeNames cm root ts r.2
    (r.1 :: rest.1, rest.2)

/-- The arity-mismatch diagnostic (base.py lines 740-741). -/
def arityMsg (filename : String) (lineno : Int) (count : Int) (n : Nat) :
    String :=
  filename ++ ":" ++ toString lineno ++ ": source has " ++ toString count ++
    " args, annotation has " ++ toString n ++ " -- skipping"

/-- `process_types(node, results, arg_types, ret_type)` (base.py lines
714-756): returns the reconciled (argument types, return type), the new
pending-import state, and diagnostics; `none` means the site is skipped. -/
def processTypes (site : Site) (argTypes0 : List String) (retType0 : String)
    (st : FixState) : Option (List String × String) × FixState × List String :=
  let ca := countArgs site.argsOpt
  let count : Int := ca.1
  let selfish := ca.2.1
  let va := addVariadicTypes ca.2.2.1 ca.2.2.2 argTypes0
  let ac := adjustSelf selfish (isMethodChain site.ancestors) count va.1
  let argTypes := ac.1
  let count := ac.2
  if (argTypes.length : Int) ≠ count then
    (none, st, [arityMsg site.filename site.lineno count argTypes.length])
  else
    let mu := mapUpdateTypeNames site.currentModule site.root argTypes st
    let retType := widenNoneReturn (hasReturnExprs site.body) retType0
    let retType := wrapGenerator (isGenerator site.body) retType
    let ru := updateTypeNames site.currentModule site.root retType mu.2
    (some (mu.1, ru.1), ru.2, [])

/-! ## `FixAnnotateJson.get_types` (fix_annotate_json.py lines 37-71) -/

/-- One record of the pre-loaded trace collection
(`type_options['type_info']`); `signature` is `none` for a legacy record
lacking the `'signature'` key. -/
structure TraceRecord where
  path : String
  func_name : String
  line : Int
  signature : Option (List String × String)

/-- The stale-data diagnostic (lines 66-67). -/
def driftMsg (filename : String) (lineno : Int) (funcName : String)
    (line : Int) : String :=
  filename ++ ":" ++ toString lineno ++ ": '" ++ funcName ++
    "' signature from line " ++ toString line ++ " too far away -- skipping"

/-- `os.path.join(top_dir, path)` for the shapes the lookup feeds it. -/
def pyJoinPath (a b : String) : String :=
  if a = "" then b
  else if pyStartsWith b "/" then b
  else a ++ "/" ++ b

/-- `FixAnnotateJson.get_types(node, results, funcname)` (lines 37-71):
filter the records by name and path, order duplicates by distance to the
site, reject the nearest one when it is at least `line_drift` lines away.
`abspathFilename` stands for `os.path.abspath(self.filename)`. -/
def getTypesJson (data : List TraceRecord) (topDir filename abspathFilename : String)
    (lineDrift lineno : Int) (funcname : String) :
    Option (List String × String) × List String :=
  let items := data.filter (fun it =>
    it.func_name = funcname &&
      (it.path = filename || pyJoinPath topDir it.path = abspathFilename))
  let items :=
    if items.length > 1 then
      items.mergeSort (fun a b => decide (|lineno - a.line| ≤ |lineno - b.line|))
    else items
  match items with
  | [] => (none, [])
  | it :: _ =>
    if |lineno - it.line| ≥ lineDrift then
      (none, [driftMsg filename lineno it.func_name it.line])
    else
      match it.signature with
      | some sig => (some sig, [])
      | none => (none, [])

/-! ## `FixAnnotateCommand.get_types`
(typewriter fix_annotate_command.py lines 15-58) -/

/-- The parsed signature component of the subprocess output
(`json.loads(out)[0]['signature']`). -/
structure CmdSignature where
  argTypes : List String
  returnType : String

/-- Outcome of `subprocess.check_output`: normal output (already parsed,
assumed schema-conformant per the external contract), a
`CalledProcessError` with its exit status, or an `OSError`. -/
inductive SubprocResult where
  | ok (sig : CmdSignature)
  | calledProcessError (returncode : Int) (output : String)
  | osError (message : String)

/-- The `REG = re.compile(r'`-?\d+')` substitution of `cleanup`: drop every
backtick followed by an optional minus and at least one digit. -/
def stripTicksAux : List Char → List Char
  | [] => []
  | c :: cs =>
    if c = '\x60' then
      match cs with
      | '-' :: rest =>
        if (rest.takeWhile Char.isDigit).isEmpty then c :: stripTicksAux ('-' :: rest)
        else stripTicksAux (rest.dropWhile Char.isDigit)
      | rest =>
        if (rest.takeWhile Char.isDigit).isEmpty then c :: stripTicksAux rest
        else stripTicksAux (rest.dropWhile Char.isDigit)
    else c :: stripTicksAux cs
termination_by l => l.length
decreasing_by
  all_goals simp_all
  all_goals have := (List.dropWhile_sublist (l := rest) Char.isDigit).length_le
  all_goals omega

/-- `cleanup(s, node)` (lines 15-22). -/
def cleanup (s : String) : String :=
  if s = "Tuple[]" then "Tuple[Any, ...]"
  else ⟨stripTicksAux s.data⟩

/-- The subprocess-failure diagnostic (lines 46-48 and 51-52);
`cmdRepr` stands for `repr(cmd)` and `payload` for the formatted error
output. -/
def cmdFailMsg (lineno : Int) (cmdRepr payload : String) : String :=
  "Line " ++ toString lineno ++ ": Failed calling " ++ cmdRepr ++ ": " ++ payload

/-- `FixAnnotateCommand.get_types(node, results, funcname)` (lines 37-58):
exit status 2 is the distinguished no-suggestion outcome and is not
logged; every other failure is logged; no failure escapes as an
exception. -/
def getTypesCommand (res : SubprocResult) (lineno : Int) (cmdRepr : String) :
    Option (List String × String) × List String :=
  match res with
  | .calledProcessError rc out =>
    if rc ≠ 2 then (none, [cmdFailMsg lineno cmdRepr (pyRstrip out)])
    else (none, [])
  | .osError msg => (none, [cmdFailMsg lineno cmdRepr msg])
  | .ok sig =>
    (some (sig.argTypes.map cleanup, cleanup sig.returnType), [])

/-! ## Auxiliary definitions used by the claim statements -/

/-- A `NAME` leaf. -/
def isNameLeaf : PyTree → Bool
  | .leaf t _ _ => t = tok.NAME
  | .node _ _ => false

/-- A `STAR` leaf. -/
def isStarLeaf : PyTree → Bool
  | .leaf t _ _ => t = tok.STAR
  | .node _ _ => false

/-- Some `'*'` token is immediately followed by a parameter name in the
child list. -/
def hasStarNameAdj : List PyTree → Bool
  | .leaf t _ _ :: .leaf t' v' p' :: rest =>
    (t = tok.STAR && t' = tok.NAME) || hasStarNameAdj (.leaf t' v' p' :: rest)
  | _ :: rest => hasStarNameAdj rest
  | [] => false

/-- Scanner phase of the parameter-list grammar `ArgsWF`. -/
inductive ArgPhase where
  | start
  | afterName
  | afterDflt

/-- Well-formed parameter-token lists, following the grammar
`(('*'|'**')? NAME ['=' expr] ','?)*` quoted in `count_args`, refined by
the language rules that a bare `'*'` is directly followed by `','`, that
at most one `'*'` section occurs (the Boolean index is true once a star
was seen), and that a default expression is a single non-`'*'` tree. -/
inductive ArgsWF : ArgPhase → Bool → List PyTree → Prop where
  | nil : ∀ ph b, ArgsWF ph b []
  | name : ∀ b v p rest, ArgsWF .afterName b rest →
      ArgsWF .start b (.leaf tok.NAME v p :: rest)
  | star : ∀ v p v' p' rest, ArgsWF .afterName true rest →
      ArgsWF .start false (.leaf tok.STAR v p :: .leaf tok.NAME v' p' :: rest)
  | bareStar : ∀ v p v2 p2 rest, ArgsWF .start true rest →
      ArgsWF .start false (.leaf tok.STAR v p :: .leaf tok.COMMA v2 p2 :: rest)
  | dstar : ∀ b v p v' p' rest, ArgsWF .afterName b rest →
      ArgsWF .start b (.leaf tok.DOUBLESTAR v p :: .leaf tok.NAME v' p' :: rest)
  | commaA : ∀ b v p rest, ArgsWF .start b rest →
      ArgsWF .afterName b (.leaf tok.COMMA v p :: rest)
  | commaD : ∀ b v p rest, ArgsWF .start b rest →
      ArgsWF .afterDflt b (.leaf tok.COMMA v p :: rest)
  | dflt : ∀ b v p e rest, e.typ ≠ tok.STAR → ArgsWF .afterDflt b rest →
      ArgsWF .afterName b (.leaf tok.EQUAL v p :: e :: rest)

/-- A `from <pkg> import <name>` statement node, as the parser yields it. -/
def mkFromImport (pkg name : String) : PyTree :=
  PyTree.node syms.simple_stmt
    [PyTree.node syms.import_from
      [PyTree.leaf tok.NAME "from" "",
       PyTree.leaf tok.NAME pkg " ",
       PyTree.leaf tok.NAME "import" " ",
       PyTree.leaf tok.NAME name " "],
     newlineLeaf]

/-- Number of import statements anywhere in a tree whose import map binds
`name` (unaliased) out of `package`. -/
def countImportStmtsFor (package name : String) (t : PyTree) : Nat :=
  (PyTree.preOrder t).countP (fun n =>
    isImport n && ((dictGet (getImportInfo n) package).getD []).contains (name, name))

/-- C6 failing input: a file that imports `mod2` in its first top-level
statement and `mod3` in its (last) second one, followed by a
function. -/
def exRootC6 : PyTree :=
  PyTree.node syms.file_input
    [mkFromImport "mod2" "X", mkFromImport "mod3" "Y",
     PyTree.node syms.funcdef []]

/-- C7 failing input: a file with two function definitions and no imports. -/
def exRootC7 : PyTree :=
  PyTree.node syms.file_input
    [PyTree.node syms.funcdef [], PyTree.node syms.funcdef []]

/-- C7, site 1: the pending imports after resolving `mod2.OtherClass`. -/
def exC7St1 : FixState :=
  (updateTypeNames "mod1" exRootC7 "mod2.OtherClass" FixState.empty).2

/-- C7: the tree after site 1's flush. -/
def exC7Root1 : PyTree := (patchImports exC7St1 exRootC7).1

/-- C7, site 2: the pending imports after resolving `mod2.OtherClass`
again, against the already-patched tree. -/
def exC7St2 : FixState :=
  (updateTypeNames "mod1" exC7Root1 "mod2.OtherClass" FixState.empty).2

/-- C7: the tree after site 2's flush. -/
def exC7Root2 : PyTree := (patchImports exC7St2 exC7Root1).1

/-- C2 counterexample site: `def m(self, a)` directly inside a class. -/
def exSiteMethod : Site :=
  { argsOpt := some (PyTree.node syms.typedargslist
      [PyTree.leaf tok.NAME "self" "", PyTree.leaf tok.COMMA "," "",
       PyTree.leaf tok.NAME "a" " "])
    ancestors := [syms.classdef]
    body := PyTree.node syms.funcdef []
    root := PyTree.node syms.file_input []
    currentModule := "mod1"
    filename := "f.py"
    lineno := 3 }

/-- C5 witness site: `def f(self, a)` at module level (not a method). -/
def exSiteFree : Site :=
  { exSiteMethod with ancestors := [] }

/-- C4 scenario site: a generator body (`yield 1`), no arguments. -/
def exSiteGen : Site :=
  { argsOpt := none
    ancestors := []
    body := PyTree.node syms.funcdef
      [PyTree.node syms.suite
        [PyTree.node syms.yield_expr
          [PyTree.leaf tok.NAME "yield" "", PyTree.leaf tok.NUMBER "1" " "]]]
    root := PyTree.node syms.file_input []
    currentModule := "m"
    filename := "f.py"
    lineno := 1 }

/-- C9 failing input: the parent of a `funcdef` decorated with the single
parameterized decorator `@foo(x)`. -/
def exDecoratedFooX : PyTree :=
  PyTree.node syms.decorated
    [PyTree.node syms.decorator
      [PyTree.leaf tok.AT "@" "",
       PyTree.leaf tok.NAME "foo" "",
       PyTree.leaf tok.LPAR "(" "",
       PyTree.leaf tok.NAME "x" "",
       PyTree.leaf tok.RPAR ")" "",
       PyTree.leaf tok.NEWLINE "\n" ""],
     PyTree.node syms.funcdef []]

/-- C3 witness record: `nop` recorded at line 10. -/
def exRecNop : TraceRecord :=
  { path := "<string>", func_name := "nop", line := 10,
    signature := some ([], "int") }

/-- C1 witness suite: the body `pass` of a freshly parsed two-line
function. -/
def exSuitePass : List PyTree :=
  [PyTree.leaf tok.NEWLINE "\n" "",
   PyTree.leaf tok.INDENT "    " "",
   PyTree.node syms.simple_stmt [PyTree.leaf tok.NAME "pass" "", newlineLeaf],
   PyTree.leaf tok.DEDENT "" ""]

/-- C10 witness parameter list: `a, *, b` — a keyword-only marker `'*'`
followed by a comma, not by a name. -/
def exC10Children : List PyTree :=
  [PyTree.leaf tok.NAME "a" "", PyTree.leaf tok.COMMA "," "",
   PyTree.leaf tok.STAR "*" " ", PyTree.leaf tok.COMMA "," "",
   PyTree.leaf tok.NAME "b" " "]

/-! ## Helper lemmas -/

theorem data_append (a b : String) : (a ++ b).data = a.data ++ b.data := rfl

theorem isPrefixOf_self_append (l m : List Char) :
    l.isPrefixOf (l ++ m) = true := by
  induction l with
  | nil => simp [List.isPrefixOf]
  | cons c cs ih => simp [List.isPrefixOf, ih]

theorem pyStartsWith_self_append (p s : String) :
    pyStartsWith (p ++ s) p = true := by
  simp [pyStartsWith, data_append, isPrefixOf_self_append]

theorem mapUpdateTypeNames_length (cm : String) (root : PyTree) :
    ∀ (l : List String) (st : FixState),
    ((mapUpdateTypeNames cm root l st).1).length = l.length := by
  intro l
  induction l with
  | nil => intro st; rfl
  | cons t ts ih => intro st; simp [mapUpdateTypeNames, ih]

theorem updateTypeNames_Any_fst (cm : String) (root : PyTree) (st : FixState) :
    (updateTypeNames cm root "Any" st).1 = "Any" := rfl

/-! ## Claim theorems -/

/-- C8: for every site, when the external command exits with the
distinguished no-suggestion status 2, `get_types` returns `None` without
logging; any other non-zero exit and any failure to launch produce one
log message and `None`; no failure outcome escapes as an exception (every
non-`ok` subprocess outcome yields `None`). -/
theorem C8_command_failures (lineno : Int) (cmdRepr out msg : String) (rc : Int) :
    (rc = 2 →
      getTypesCommand (.calledProcessError rc out) lineno cmdRepr = (none, [])) ∧
    (rc ≠ 2 →
      getTypesCommand (.calledProcessError rc out) lineno cmdRepr =
        (none, [cmdFailMsg lineno cmdRepr (pyRstrip out)])) ∧
    getTypesCommand (.osError msg) lineno cmdRepr =
      (none, [cmdFailMsg lineno cmdRepr msg]) ∧
    (∀ res : SubprocResult,
      (getTypesCommand res lineno cmdRepr).1 = none ∨ ∃ sig, res = .ok sig) := by
  refine ⟨?_, ?_, rfl, ?_⟩
  · intro h; simp [getTypesCommand, h]
  · intro h; simp [getTypesCommand, h]
  · intro res
    cases res with
    | ok sig => exact Or.inr ⟨sig, rfl⟩
    | calledProcessError rc' out' =>
      left; simp only [getTypesCommand]; split <;> rfl
    | osError m => left; rfl

theorem C8_command_failures_witness :
    getTypesCommand (.calledProcessError 2 "boom") 7 "cmd" = (none, []) ∧
    getTypesCommand (.calledProcessError 1 "boom") 7 "cmd" =
      (none, [cmdFailMsg 7 "cmd" (pyRstrip "boom")]) :=
  ⟨(C8_command_failures 7 "cmd" "boom" "m" 2).1 rfl,
   (C8_command_failures 7 "cmd" "boom" "m" 1).2.1 (by decide)⟩

/-- C9 (code evaluated at the failing input): on a function decorated only
with the parameterized decorator `@foo(x)`, `get_decorators` returns
`["foo", "x"]` — the decorator's own name and its bare argument — while
the claim (and the function's own doc string) require a parameterized
decorator to contribute no name.  An undecorated function does yield `[]`. -/
theorem C9_decorators_eval :
    getDecorators (some exDecoratedFooX) = ["foo", "x"] ∧
    getDecorators none = [] :=
  ⟨rfl, rfl⟩

/-- C6 (code evaluated at the failing input): in a file whose top-level
statements are `from mod2 import X` followed by `from mod3 import Y`,
the module `mod2` does have an unconditional top-level import and
`mod2.OtherClass` is not resolvable through an existing import statement,
yet `get_unprotected_imports` reports only `{mod3}` (the rebinding bug:
only the last import statement's keys survive), so `type_updater` defers
the new requirement into the TYPE_CHECKING queue instead of emitting an
ordinary top-level import. -/
theorem C6_unprotected_eval :
    (findImportInfo "mod2" "X" exRootC6).isSome = true ∧
    typeByImportStmt "mod2" "OtherClass" exRootC6 = none ∧
    getUnprotectedImports exRootC6 = ["mod3"] ∧
    typeUpdater "mod1" exRootC6 "mod2.OtherClass" FixState.empty =
      ("OtherClass", ⟨[], [("mod2", "OtherClass")]⟩) := by
  refine ⟨rfl, rfl, rfl, rfl⟩

/-- C2 (counterexample): at the method site `def m(self, a)` (declared
parameter count 2) with resolved signature `["int"]`, the reconciler
succeeds and emits exactly one argument-type entry, so the emitted entry
count differs from the actual declared-parameter count. -/
theorem C2_counterexample :
    (processTypes exSiteMethod ["int"] "int" FixState.empty).1 =
      some (["int"], "int") ∧
    (countArgs exSiteMethod.argsOpt).1 = 2 ∧
    (["int"] : List String).length ≠ (countArgs exSiteMethod.argsOpt).1 := by
  refine ⟨rfl, rfl, by decide⟩

/-- The three possible outcomes of the receiver adjustment. -/
theorem adjustSelf_cases (selfish isMeth : Bool) (count : Int) (l : List String) :
    adjustSelf selfish isMeth count l = (l, count) ∨
    (selfish = true ∧ isMeth = true ∧ (l.length : Int) = count - 1 ∧
      adjustSelf selfish isMeth count l = (l, count - 1)) ∨
    (selfish = true ∧ isMeth = false ∧
      adjustSelf selfish isMeth count l = ("Any" :: l, count)) := by
  unfold adjustSelf
  split
  · rename_i hc
    split
    · rename_i hmeth
      exact Or.inr (Or.inl ⟨hc.1, hmeth, hc.2, rfl⟩)
    · rename_i hmeth
      refine Or.inr (Or.inr ⟨hc.1, ?_, rfl⟩)
      simpa using hmeth
  · exact Or.inl rfl

/-- C2 (amended): whenever `process_types` succeeds, the number of emitted
argument-type entries equals the actual declared-parameter count — except
at a method site whose `self`/`cls` receiver was dropped from the
comparison, where it equals the declared count minus one. -/
theorem C2_entry_count (site : Site) (argTypes0 : List String)
    (retType0 : String) (st : FixState) (ats : List String) (rt : String)
    (st' : FixState) (logs : List String)
    (h : processTypes site argTypes0 retType0 st = (some (ats, rt), st', logs)) :
    (ats.length : Int) = ((countArgs site.argsOpt).1 : Int) ∨
      (isMethodChain site.ancestors = true ∧
        (countArgs site.argsOpt).2.1 = true ∧
        (ats.length : Int) = ((countArgs site.argsOpt).1 : Int) - 1) := by
  simp only [processTypes] at h
  rcases hac : adjustSelf (countArgs site.argsOpt).2.1
      (isMethodChain site.ancestors) ((countArgs site.argsOpt).1 : Int)
      (addVariadicTypes (countArgs site.argsOpt).2.2.1
        (countArgs site.argsOpt).2.2.2 argTypes0).1 with ⟨args1, count1⟩
  rw [hac] at h
  split at h
  · simp at h
  · rename_i harity
    rw [not_not] at harity
    have hats : ats = (mapUpdateTypeNames site.currentModule site.root args1 st).1 := by
      have := congrArg (fun p => p.1) h
      simp at this
      exact this.1.symm
    have hlen : (ats.length : Int) = count1 := by
      rw [hats, mapUpdateTypeNames_length]; exact harity
    rcases adjustSelf_cases (countArgs site.argsOpt).2.1
        (isMethodChain site.ancestors) ((countArgs site.argsOpt).1 : Int)
        (addVariadicTypes (countArgs site.argsOpt).2.2.1
          (countArgs site.argsOpt).2.2.2 argTypes0).1 with hcase | hcase | hcase
    · rw [hac] at hcase
      injection hcase with h1 h2
      exact Or.inl (by omega)
    · obtain ⟨hsel, hmeth, _, heq⟩ := hcase
      rw [hac] at heq
      injection heq with h1 h2
      exact Or.inr ⟨hmeth, hsel, by omega⟩
    · obtain ⟨hsel, _, heq⟩ := hcase
      rw [hac] at heq
      injection heq with h1 h2
      exact Or.inl (by omega)

theorem C2_entry_count_witness :
    processTypes exSiteFree ["int"] "int" FixState.empty =
      (some (["Any", "int"], "int"), ⟨[("typing", "Any")], []⟩, []) ∧
    ((["Any", "int"] : List String).length : Int) =
      ((countArgs exSiteFree.argsOpt).1 : Int) :=
  ⟨by decide, C2_entry_count exSiteFree ["int"] "int" FixState.empty
    ["Any", "int"] "int" ⟨[("typing", "Any")], []⟩ [] (by decide) |>.resolve_right
      (by intro hc; exact absurd hc.1 (by decide))⟩

theorem optional_shaped_data (u : String) :
    ("Optional[" ++ u ++ "]").data =
      'O' :: "ptional[".data ++ u.data ++ [']'] := rfl

theorem optional_ne_iterator (u : String) :
    ("Optional[" ++ u ++ "]") ≠ "Iterator" := by
  intro h
  have hd := congrArg String.data h
  rw [optional_shaped_data] at hd
  have : 'O' = 'I' := by
    have := congrArg List.head? hd
    simp at this
  exact absurd this (by decide)

theorem optional_not_iterator_prefixed (u : String) :
    pyStartsWith ("Optional[" ++ u ++ "]") "Iterator[" = false := by
  simp [pyStartsWith, optional_shaped_data, List.isPrefixOf]

theorem optional_starts_optional (u : String) :
    pyStartsWith ("Optional[" ++ u ++ "]") "Optional[" = true := by
  rw [String.append_assoc]
  exact pyStartsWith_self_append _ _

theorem optional_slice (u : String) :
    ((("Optional[" ++ u ++ "]").data.drop 9).dropLast : List Char) = u.data := by
  have h : ("Optional[" ++ u ++ "]").data.drop 9 = u.data ++ [']'] := rfl
  rw [h]
  exact List.dropLast_concat

/-- C4: for a site whose body contains a `yield`, the reconciler wraps the
resolved return type `T` as `Iterator[T]` unless `T` is already `Iterator`
or starts with `Iterator[`; a type of the form `Optional[U]` is first
unwrapped, giving `Iterator[U]`; and a generator with recorded return type
`"int"` comes out annotated `Iterator[int]`, not `int`. -/
theorem C4_generator_wrap :
    (∀ ret : String, (ret = "Iterator" ∨ pyStartsWith ret "Iterator[" = true) →
      wrapGenerator true ret = ret) ∧
    (∀ u : String,
      wrapGenerator true ("Optional[" ++ u ++ "]") = "Iterator[" ++ u ++ "]") ∧
    (∀ ret : String, ¬(ret = "Iterator" ∨ pyStartsWith ret "Iterator[" = true) →
      pyStartsWith ret "Optional[" = false →
      wrapGenerator true ret = "Iterator[" ++ ret ++ "]") ∧
    (processTypes exSiteGen [] "int" FixState.empty).1 =
      some ([], "Iterator[int]") := by
  refine ⟨?_, ?_, ?_, by decide⟩
  · intro ret h
    simp [wrapGenerator, h]
  · intro u
    have hcond : ¬(("Optional[" ++ u ++ "]") = "Iterator" ∨
        pyStartsWith ("Optional[" ++ u ++ "]") "Iterator[" = true) := by
      rintro (h | h)
      · exact optional_ne_iterator u h
      · rw [optional_not_iterator_prefixed] at h
        exact absurd h (by decide)
    have hopt := optional_starts_optional u
    have hslice :
        (⟨(("Optional[" ++ u ++ "]").data.drop 9).dropLast⟩ : String) = u := by
      rw [optional_slice]
    simp [wrapGenerator, hopt, hcond, hslice]
  · intro ret h hopt
    simp [wrapGenerator, h, hopt]

theorem C4_generator_wrap_witness :
    ¬(("int" : String) = "Iterator" ∨ pyStartsWith "int" "Iterator[" = true) ∧
    pyStartsWith "int" "Optional[" = false ∧
    wrapGenerator true "int" = "Iterator[int]" := by
  refine ⟨by decide, by decide, ?_⟩
  have h := C4_generator_wrap.2.2.1 "int" (by decide) (by decide)
  have he : ("Iterator[" ++ "int" ++ "]" : String) = "Iterator[int]" := by decide
  rw [he] at h
  exact h

/-- C5: at a site whose first parameter is `self`/`cls` and whose signature
(after the variadic adjustment) has exactly one fewer entry than the
declared parameter count, a free function gets a synthetic `Any` inserted
at the front (entry count reaching the declared count), while a method has
the receiver dropped from the comparison instead (entry count one below
the declared count); both reconcile successfully. -/
theorem C5_receiver_adjustment (site : Site) (argTypes0 : List String)
    (retType0 : String) (st : FixState) (count : Nat) (star starstar : Bool)
    (hca : countArgs site.argsOpt = (count, true, star, starstar))
    (hlen : (((addVariadicTypes star starstar argTypes0).1).length : Int) =
      (count : Int) - 1) :
    (isMethodChain site.ancestors = false →
      ∃ ats rt st2,
        processTypes site argTypes0 retType0 st = (some (ats, rt), st2, []) ∧
        (ats.length : Int) = (count : Int) ∧ ats.head? = some "Any") ∧
    (isMethodChain site.ancestors = true →
      ∃ ats rt st2,
        processTypes site argTypes0 retType0 st = (some (ats, rt), st2, []) ∧
        (ats.length : Int) = (count : Int) - 1) := by
  constructor
  · intro hm
    have hadj : adjustSelf (countArgs site.argsOpt).2.1
        (isMethodChain site.ancestors) ((countArgs site.argsOpt).1 : Int)
        (addVariadicTypes (countArgs site.argsOpt).2.2.1
          (countArgs site.argsOpt).2.2.2 argTypes0).1 =
        ("Any" :: (addVariadicTypes star starstar argTypes0).1, (count : Int)) := by
      rw [hca]
      simp [adjustSelf, hm, hlen]
    simp only [processTypes]
    rw [hadj]
    dsimp only
    rw [if_neg (by simp only [List.length_cons]; push_cast; omega)]
    refine ⟨_, _, _, rfl, ?_, ?_⟩
    · rw [mapUpdateTypeNames_length]
      simp only [List.length_cons]
      push_cast
      omega
    · simp [mapUpdateTypeNames, updateTypeNames_Any_fst]
  · intro hm
    have hadj : adjustSelf (countArgs site.argsOpt).2.1
        (isMethodChain site.ancestors) ((countArgs site.argsOpt).1 : Int)
        (addVariadicTypes (countArgs site.argsOpt).2.2.1
          (countArgs site.argsOpt).2.2.2 argTypes0).1 =
        ((addVariadicTypes star starstar argTypes0).1, (count : Int) - 1) := by
      rw [hca]
      simp [adjustSelf, hm, hlen]
    simp only [processTypes]
    rw [hadj]
    dsimp only
    rw [if_neg (by omega)]
    refine ⟨_, _, _, rfl, ?_⟩
    rw [mapUpdateTypeNames_length]
    omega

theorem C5_receiver_adjustment_witness :
    countArgs exSiteFree.argsOpt = (2, true, false, false) ∧
    (((addVariadicTypes false false ["int"]).1).length : Int) = (2 : Int) - 1 ∧
    isMethodChain exSiteFree.ancestors = false ∧
    ∃ ats rt st2,
      processTypes exSiteFree ["int"] "int" FixState.empty =
        (some (ats, rt), st2, []) ∧
      (ats.length : Int) = (2 : Int) ∧ ats.head? = some "Any" := by
  refine ⟨by decide, by decide, by decide, ?_⟩
  exact (C5_receiver_adjustment exSiteFree ["int"] "int" FixState.empty
    2 false false (by decide) (by decide)).1 (by decide)

/-- C3: for a site at line `lineno`, among the matching trace records the
one with minimal `|recorded line − lineno|` is the one tested against the
drift threshold; it is applied exactly when that distance is strictly
below `line_drift` (so the boundary case is rejected), a rejection
emitting the "too far away" diagnostic and returning `None` rather than
failing. -/
theorem C3_drift_policy
    (data : List TraceRecord) (topDir filename abspathFilename : String)
    (lineDrift lineno : Int) (funcname : String)
    (items sorted : List TraceRecord) (it : TraceRecord)
    (rest : List TraceRecord)
    (hitems : items = data.filter (fun r =>
      r.func_name = funcname &&
        (r.path = filename || pyJoinPath topDir r.path = abspathFilename)))
    (hsorted : sorted = (if items.length > 1 then
      items.mergeSort (fun a b => decide (|lineno - a.line| ≤ |lineno - b.line|))
      else items))
    (hhead : sorted = it :: rest) :
    (∀ r ∈ items, |lineno - it.line| ≤ |lineno - r.line|) ∧
    (|lineno - it.line| ≥ lineDrift →
      getTypesJson data topDir filename abspathFilename lineDrift lineno funcname =
        (none, [driftMsg filename lineno it.func_name it.line])) ∧
    (∀ sig, |lineno - it.line| < lineDrift → it.signature = some sig →
      getTypesJson data topDir filename abspathFilename lineDrift lineno funcname =
        (some sig, [])) := by
  have hg : getTypesJson data topDir filename abspathFilename lineDrift lineno funcname
      = (if |lineno - it.line| ≥ lineDrift then
          (none, [driftMsg filename lineno it.func_name it.line])
        else
          match it.signature with
          | some sig => (some sig, [])
          | none => (none, [])) := by
    unfold getTypesJson
    rw [← hitems]
    dsimp only
    rw [← hsorted, hhead]
  refine ⟨?_, ?_, ?_⟩
  · intro r hr
    by_cases hlen : items.length > 1
    · rw [if_pos hlen] at hsorted
      have htrans : ∀ a b c : TraceRecord,
          (fun a b => decide (|lineno - a.line| ≤ |lineno - b.line|)) a b = true →
          (fun a b => decide (|lineno - a.line| ≤ |lineno - b.line|)) b c = true →
          (fun a b => decide (|lineno - a.line| ≤ |lineno - b.line|)) a c = true := by
        intro a b c h1 h2
        simp only [decide_eq_true_eq] at *
        exact le_trans h1 h2
      have htotal : ∀ a b : TraceRecord,
          ((fun a b => decide (|lineno - a.line| ≤ |lineno - b.line|)) a b ||
           (fun a b => decide (|lineno - a.line| ≤ |lineno - b.line|)) b a) = true := by
        intro a b
        simp only [Bool.or_eq_true, decide_eq_true_eq]
        exact le_total _ _
      have hpair := List.sorted_mergeSort htrans htotal items
      rw [← hsorted, hhead] at hpair
      have hperm := List.mergeSort_perm items
        (fun a b => decide (|lineno - a.line| ≤ |lineno - b.line|))
      rw [← hsorted, hhead] at hperm
      have hrmem : r ∈ it :: rest := hperm.mem_iff.mpr hr
      rcases List.mem_cons.mp hrmem with h | h
      · rw [h]
      · have := (List.pairwise_cons.mp hpair).1 r h
        simpa using this
    · rw [if_neg hlen] at hsorted
      have hit : items = it :: rest := by rw [← hsorted, hhead]
      rw [hit] at hr
      have hrest : rest = [] := by
        rw [hit] at hlen
        simp at hlen
        exact hlen
      rw [hrest] at hr
      rcases List.mem_singleton.mp hr with h
      rw [h]
  · intro h
    rw [hg, if_pos h]
  · intro sig hlt hsig
    rw [hg, if_neg (by omega), hsig]

theorem C3_drift_policy_witness :
    (|(1 : Int) - exRecNop.line| ≥ 9) ∧
    getTypesJson [exRecNop] "" "<string>" "<string>" 9 1 "nop" =
      (none, [driftMsg "<string>" 1 "nop" 10]) := by
  refine ⟨by decide, ?_⟩
  exact (C3_drift_policy [exRecNop] "" "<string>" "<string>" 9 1 "nop"
      [exRecNop] [exRecNop] exRecNop [] rfl rfl rfl).2.1 (by decide)

theorem isPrefixOf_append_of_isPrefixOf (l : List Char) :
    ∀ (m n : List Char), l.isPrefixOf m = true → l.isPrefixOf (m ++ n) = true := by
  induction l with
  | nil => intro m n _; simp [List.isPrefixOf]
  | cons c cs ih =>
    intro m n h
    cases m with
    | nil => simp [List.isPrefixOf] at h
    | cons d ds =>
      simp only [List.isPrefixOf, Bool.and_eq_true] at h ⊢
      exact ⟨h.1, ih ds n h.2⟩

theorem isPrefixOf_dropWhile_ws (vd rest : List Char)
    (hv : vd.all isPyWS = true)
    (hr : ("# type:".data).isPrefixOf rest = true) :
    ("# type:".data).isPrefixOf ((vd ++ rest).dropWhile isPyWS) = true := by
  induction vd with
  | nil =>
    cases rest with
    | nil => simp [List.isPrefixOf] at hr
    | cons r rs =>
      have h7 : "# type:".data = '#' :: " type:".data := rfl
      rw [h7] at hr
      simp only [List.isPrefixOf, Bool.and_eq_true, beq_iff_eq] at hr
      obtain ⟨hr1, hr2⟩ := hr
      subst hr1
      simp [List.dropWhile_cons, show isPyWS '#' = false from by decide,
        h7, List.isPrefixOf, hr2]
  | cons c cs ih =>
    simp only [List.all_cons, Bool.and_eq_true] at hv
    rw [List.cons_append, List.dropWhile_cons, hv.1]
    simp only [if_true]
    exact ih hv.2

theorem pyStartsWith_annot_comment (v x other : String)
    (hv : v.data.all isPyWS = true)
    (hx : pyStartsWith x "# type:" = true) :
    pyStartsWith (pyLstrip (v ++ x ++ other)) "# type:" = true := by
  unfold pyStartsWith pyLstrip at *
  have hd : (v ++ x ++ other).data = v.data ++ (x.data ++ other.data) := by
    simp [data_append]
  rw [hd]
  exact isPrefixOf_dropWhile_ws v.data (x.data ++ other.data) hv
    (isPrefixOf_append_of_isPrefixOf _ _ _ hx)

theorem pyStartsWith_annotStr (annot0 : String) :
    pyStartsWith ("# type: " ++ annot0 ++ "\n") "# type:" = true := by
  unfold pyStartsWith
  have hd : ("# type: " ++ annot0 ++ "\n").data =
      "# type: ".data ++ (annot0.data ++ "\n".data) := by
    simp [data_append]
  rw [hd]
  exact isPrefixOf_append_of_isPrefixOf _ _ _ (by decide)

theorem pyStartsWith_append_right (x y p : String)
    (h : pyStartsWith x p = true) : pyStartsWith (x ++ y) p = true := by
  unfold pyStartsWith at *
  rw [data_append]
  exact isPrefixOf_append_of_isPrefixOf _ _ _ h

/-- C1: whenever `add_py2_annot` writes its type comment into a suite
(returns with `annotated`), every later `should_skip` on the resulting
suite returns `true` — the `# type:` comment is detected — so a second run
with the same signature source leaves the site alone.  The hypotheses say
that `find_indentation` produced whitespace and that INDENT tokens carry
whitespace, as the parser guarantees. -/
theorem C1_second_run_skips (argtypes : List String) (restype : String)
    (children0 : List PyTree) (indentation commentStyle filename : String)
    (lineno : Int) (counter : Option Int)
    (parametersNode argsNode : Option PyTree)
    (hin : indentation.data.all isPyWS = true)
    (hch : ∀ ch ∈ children0, ch.typ = tok.INDENT →
      ∃ v p, ch = PyTree.leaf tok.INDENT v p ∧ v.data.all isPyWS = true)
    (hann : (addPy2Annot argtypes restype children0 indentation commentStyle
      filename lineno).annotated = true) :
    shouldSkip counter parametersNode argsNode
      (addPy2Annot argtypes restype children0 indentation commentStyle
        filename lineno).children = true := by
  suffices hshape : ∃ c0x rest2 v annotStr other,
      (addPy2Annot argtypes restype children0 indentation commentStyle
        filename lineno).children =
        c0x :: PyTree.leaf tok.INDENT v (v ++ annotStr ++ other) :: rest2 ∧
      v.data.all isPyWS = true ∧ pyStartsWith annotStr "# type:" = true by
    obtain ⟨c0x, rest2, v, annotStr, other, hcs, hv, hst⟩ := hshape
    have hmem : (addPy2Annot argtypes restype children0 indentation
        commentStyle filename lineno).children.any (fun ch =>
          pyStartsWith (pyLstrip (PyTree.prefixOf ch)) "# type:") = true := by
      rw [hcs]
      apply List.any_eq_true.mpr
      refine ⟨PyTree.leaf tok.INDENT v (v ++ annotStr ++ other), by simp, ?_⟩
      show pyStartsWith (pyLstrip (v ++ annotStr ++ other)) "# type:" = true
      exact pyStartsWith_annot_comment v annotStr other hv hst
    simp [shouldSkip, hmem]
  rcases hres : addPy2Annot argtypes restype children0 indentation
      commentStyle filename lineno with ⟨childrenR, ann, logsR⟩
  rw [hres] at hann
  simp only at hann
  subst hann
  simp only
  unfold addPy2Annot at hres
  cases children0 with
  | nil => simp at hres
  | cons c0 rest =>
    dsimp only at hres
    split at hres
    · next restX h1 h2 rest3 hre =>
      split at hres
      · rename_i hind
        -- establish that the INDENT child is a whitespace-valued leaf
        have hh2 : ∃ v p, h2 = PyTree.leaf tok.INDENT v p ∧
            v.data.all isPyWS = true := by
          split at hre
          · injection hre with e1 hre'
            injection hre' with e2 hre''
            refine ⟨indentation ++ "    ", "", e2.symm, ?_⟩
            rw [data_append, List.all_append]
            simp [hin]
            decide
          · injection hre with e1 hre'
            refine hch h2 ?_ hind
            rw [hre']
            simp
        obtain ⟨v, p, hh2eq, hv⟩ := hh2
        subst hh2eq
        split at hres
        · split at hres
          · simp at hres
          · rename_i hcomm
            simp only [PyTree.setPrefix, PyTree.valueOf,
              Py2AnnotResult.mk.injEq] at hres
            refine ⟨_, _, _, _, _, hres.1.symm, hv, ?_⟩
            split
            · exact pyStartsWith_append_right _ _ _ (pyStartsWith_annotStr _)
            · exact pyStartsWith_annotStr _
        · split at hres
          · simp at hres
          · rename_i hcomm
            simp only [PyTree.setPrefix, PyTree.valueOf,
              Py2AnnotResult.mk.injEq] at hres
            refine ⟨_, _, _, _, _, hres.1.symm, hv, ?_⟩
            split
            · exact pyStartsWith_append_right _ _ _ (pyStartsWith_annotStr _)
            · exact pyStartsWith_annotStr _
      · simp at hres
    · next hne =>
      simp at hres

theorem C1_second_run_skips_witness :
    (addPy2Annot ["int"] "int" exSuitePass "" "auto" "f.py" 1).annotated = true ∧
    shouldSkip none none none
      (addPy2Annot ["int"] "int" exSuitePass "" "auto" "f.py" 1).children = true := by
  refine ⟨by decide, ?_⟩
  apply C1_second_run_skips
  · decide
  · intro ch hmem hind
    simp only [exSuitePass, newlineLeaf, List.mem_cons, List.mem_singleton,
      List.not_mem_nil, or_false] at hmem
    rcases hmem with rfl | rfl | rfl | rfl
    · exact absurd hind (by decide)
    · exact ⟨"    ", "", rfl, by decide⟩
    · exact absurd hind (by decide)
    · exact absurd hind (by decide)
  · decide

/-- C7 (counterexample): in one file with two annotation sites both
needing `mod2.OtherClass`, the per-site flush inserts the deferred
`from mod2 import OtherClass` twice — site 2 re-requests the pair because
`type_by_import_stmt` does not see bindings inside the TYPE_CHECKING
block, so requesting the same (module, entry) pair twice yields two
inserted statements, not one. -/
theorem C7_counterexample :
    exC7St1.neededTC = [("mod2", "OtherClass")] ∧
    exC7St2.neededTC = [("mod2", "OtherClass")] ∧
    countImportStmtsFor "mod2" "OtherClass" exC7Root1 = 1 ∧
    countImportStmtsFor "mod2" "OtherClass" exC7Root2 = 2 := by
  exact ⟨rfl, rfl, rfl, rfl⟩

theorem insertPair_absorb (l : List (String × String)) (p : String × String) :
    insertPair (insertPair l p) p = insertPair l p := by
  by_cases h : l.contains p = true
  · have hi : insertPair l p = l := by rw [insertPair, if_pos h]
    rw [hi]
    exact hi
  · have hi : insertPair l p = l ++ [p] := by rw [insertPair, if_neg h]
    rw [hi, insertPair, if_pos (show (l ++ [p]).contains p = true by simp)]

theorem insertPairLe_perm (x : String × String) :
    ∀ l : List (String × String), (insertPairLe x l).Perm (x :: l) := by
  intro l
  induction l with
  | nil => simp [insertPairLe]
  | cons y ys ih =>
    unfold insertPairLe
    split
    · exact List.Perm.refl _
    · exact (List.Perm.cons y ih).trans (List.Perm.swap x y ys)

theorem pySortedPairs_perm (l : List (String × String)) :
    (pySortedPairs l).Perm l := by
  induction l with
  | nil => simp [pySortedPairs]
  | cons x xs ih =>
    unfold pySortedPairs at *
    exact (insertPairLe_perm x _).trans (List.Perm.cons x ih)

theorem countP_pair_insert (l : List (String × String)) (p : String × String)
    (hmem : p ∉ l) :
    (insertPair l p).countP (fun x => decide (x = p)) = 1 := by
  have hcont : l.contains p = false := by simpa using hmem
  rw [insertPair, hcont]
  simp only [Bool.false_eq_true, if_false, List.countP_append]
  have h0 : l.countP (fun x => decide (x = p)) = 0 := by
    apply List.countP_eq_zero.mpr
    intro a ha
    simp only [decide_eq_true_eq]
    rintro rfl
    exact hmem ha
  simp [h0, List.countP_cons]

theorem countP_pair_zero (l : List (String × String)) (p : String × String)
    (hmem : p ∉ l) :
    l.countP (fun x => decide (x = p)) = 0 := by
  apply List.countP_eq_zero.mpr
  intro a ha
  simp only [decide_eq_true_eq]
  rintro rfl
  exact hmem ha

/-- C7 (amended): inside one flush cycle the pending-import sets
deduplicate — requesting the same (module, entry) twice equals requesting
it once, and the flush emits that pair in exactly one create call — and a
requirement whose name is already resolvable through an existing import
binding is never emitted (`type_by_import_stmt` returning a binding makes
`type_updater` return the bound name with the pending state untouched,
and likewise for the typing shortcut).  Across sites, deferred pairs can
be re-inserted, as the counterexample shows. -/
theorem C7_import_dedup :
    (∀ (cm m e : String) (itc : Bool) (st : FixState),
      addImport cm m e itc (addImport cm m e itc st) = addImport cm m e itc st) ∧
    (∀ (cm m e : String) (itc : Bool) (st : FixState),
      m ≠ cm → (m, e) ∉ st.needed → (m, e) ∉ st.neededTC →
      (pySortedPairs (addImport cm m e itc (addImport cm m e itc st)).needed ++
       pySortedPairs (addImport cm m e itc (addImport cm m e itc st)).neededTC).countP
        (fun x => decide (x = (m, e))) = 1) ∧
    (∀ (cm word : String) (root : PyTree) (st : FixState)
       (mod name toImport r : String),
      (if pyHasChar word ':' then
        ((pySplitColon1 word).1, (pySplitColon1 word).2,
          pySplitDotHead (pySplitColon1 word).2)
      else ((pyRsplitDot1 word).1, (pyRsplitDot1 word).2,
        (pyRsplitDot1 word).2)) = (mod, name, toImport) →
      word ≠ "..." →
      (pyHasChar word '.' || pyHasChar word ':') = true →
      typeByImportStmt mod toImport root = some r →
      typeUpdater cm root word st = (r, st)) ∧
    (∀ (cm word : String) (root : PyTree) (st : FixState),
      (typeByImportStmt "typing" word root).isSome = true →
      touchTypingImport cm root word st = st) := by
  refine ⟨?_, ?_, ?_, ?_⟩
  · intro cm m e itc st
    unfold addImport
    split
    · rfl
    · split <;> simp [insertPair_absorb]
  · intro cm m e itc st hcm hn htc
    have habs : addImport cm m e itc (addImport cm m e itc st) =
        addImport cm m e itc st := by
      unfold addImport
      split
      · rfl
      · split <;> simp [insertPair_absorb]
    rw [habs]
    unfold addImport
    rw [if_neg hcm]
    split
    · -- deferred: the pair lands in neededTC only
      simp only [List.countP_append]
      rw [(pySortedPairs_perm st.needed).countP_eq,
        (pySortedPairs_perm (insertPair st.neededTC (m, e))).countP_eq,
        countP_pair_zero st.needed (m, e) hn,
        countP_pair_insert st.neededTC (m, e) htc]
    · -- top level: the pair lands in needed only
      simp only [List.countP_append]
      rw [(pySortedPairs_perm (insertPair st.needed (m, e))).countP_eq,
        (pySortedPairs_perm st.neededTC).countP_eq,
        countP_pair_insert st.needed (m, e) hn,
        countP_pair_zero st.neededTC (m, e) htc]
  · intro cm word root st mod name toImport r hmnt hdots hhas hres
    unfold typeUpdater
    rw [if_neg hdots]
    have hcond : ¬((!pyHasChar word '.' && !pyHasChar word ':') = true) := by
      intro hcontra
      simp only [Bool.and_eq_true, Bool.not_eq_true'] at hcontra
      rw [hcontra.1, hcontra.2] at hhas
      simp at hhas
    rw [if_neg hcond, hmnt]
    dsimp only
    rw [hres]
  · intro cm word root st hsome
    unfold touchTypingImport
    have hnone : (typeByImportStmt "typing" word root).isNone = false := by
      rcases h : typeByImportStmt "typing" word root with _ | v
      · rw [h] at hsome; simp at hsome
      · simp
    split
    · rw [hnone]
      simp
    · rfl

theorem C7_import_dedup_witness :
    ("mod2" : String) ≠ "mod1" ∧
    ((("mod2", "OtherClass") : String × String) ∉ FixState.empty.needed) ∧
    ((("mod2", "OtherClass") : String × String) ∉ FixState.empty.neededTC) ∧
    (pySortedPairs (addImport "mod1" "mod2" "OtherClass" true
        (addImport "mod1" "mod2" "OtherClass" true FixState.empty)).needed ++
     pySortedPairs (addImport "mod1" "mod2" "OtherClass" true
        (addImport "mod1" "mod2" "OtherClass" true FixState.empty)).neededTC).countP
      (fun x => decide (x = ("mod2", "OtherClass"))) = 1 := by
  refine ⟨by decide, by simp [FixState.empty], by simp [FixState.empty], ?_⟩
  exact C7_import_dedup.2.1 "mod1" "mod2" "OtherClass" true FixState.empty
    (by decide) (by simp [FixState.empty]) (by simp [FixState.empty])

theorem isStarLeaf_eq_false (e : PyTree) (he : e.typ ≠ tok.STAR) :
    isStarLeaf e = false := by
  cases e with
  | node t cs => rfl
  | leaf t v p =>
    simp only [PyTree.typ] at he
    simp [isStarLeaf, he]

theorem hasStarNameAdj_cons_nonstar (e : PyTree) (rest : List PyTree)
    (he : e.typ ≠ tok.STAR) :
    hasStarNameAdj (e :: rest) = hasStarNameAdj rest := by
  cases e with
  | node t cs => rfl
  | leaf t v p =>
    simp only [PyTree.typ] at he
    cases rest with
    | nil => rfl
    | cons r rs =>
      cases r with
      | node t' cs' => rfl
      | leaf t' v' p' => simp [hasStarNameAdj, he]

theorem countArgsAux_count_le :
    ∀ (children : List PyTree) (c : Nat) (s st ss sk ps : Bool),
    (countArgsAux children c s st ss sk ps).1 ≤ c + children.countP isNameLeaf := by
  intro children
  induction children with
  | nil => intro c s st ss sk ps; simp [countArgsAux]
  | cons child rest ih =>
    intro c s st ss sk ps
    unfold countArgsAux
    split
    · refine le_trans (ih c s st ss false ps) ?_
      rw [List.countP_cons]
      omega
    · cases child with
      | node t cs =>
        dsimp only
        refine le_trans (ih c s st ss false ps) ?_
        rw [List.countP_cons]
        omega
      | leaf t v p =>
        dsimp only
        split
        · refine le_trans (ih c s st ss false true) ?_
          rw [List.countP_cons]
          omega
        · split
          · refine le_trans (ih c s st true false false) ?_
            rw [List.countP_cons]
            omega
          · split
            · rename_i hname
              refine le_trans (ih (c + 1) _ _ ss false false) ?_
              rw [List.countP_cons]
              have hn : isNameLeaf (PyTree.leaf t v p) = true := by
                simp [isNameLeaf, hname]
              simp only [hn, if_true]
              omega
            · split
              · refine le_trans (ih c s st ss true false) ?_
                rw [List.countP_cons]
                omega
              · refine le_trans (ih c s st ss false false) ?_
                rw [List.countP_cons]
                omega

theorem countArgsAux_skip_step (child : PyTree) (rest : List PyTree)
    (c : Nat) (s st ss ps : Bool) :
    countArgsAux (child :: rest) c s st ss true ps =
      countArgsAux rest c s st ss false ps := rfl

theorem countArgsAux_star_step (v p : String) (rest : List PyTree)
    (c : Nat) (s st ss ps : Bool) :
    countArgsAux (.leaf tok.STAR v p :: rest) c s st ss false ps =
      countArgsAux rest c s st ss false true := rfl

theorem countArgsAux_dstar_step (v p : String) (rest : List PyTree)
    (c : Nat) (s st ss ps : Bool) :
    countArgsAux (.leaf tok.DOUBLESTAR v p :: rest) c s st ss false ps =
      countArgsAux rest c s st true false false := rfl

theorem countArgsAux_name_step (v p : String) (rest : List PyTree)
    (c : Nat) (s st ss ps : Bool) :
    countArgsAux (.leaf tok.NAME v p :: rest) c s st ss false ps =
      countArgsAux rest (c + 1)
        (if c = 0 && (v = "self" || v = "cls") then true else s)
        (if ps then true else st) ss false false := rfl

theorem countArgsAux_equal_step (v p : String) (rest : List PyTree)
    (c : Nat) (s st ss ps : Bool) :
    countArgsAux (.leaf tok.EQUAL v p :: rest) c s st ss false ps =
      countArgsAux rest c s st ss true false := rfl

theorem countArgsAux_comma_step (v p : String) (rest : List PyTree)
    (c : Nat) (s st ss ps : Bool) :
    countArgsAux (.leaf tok.COMMA v p :: rest) c s st ss false ps =
      countArgsAux rest c s st ss false false := rfl

theorem hasStarNameAdj_cons_cons (t t' : Nat) (v p v' p' : String)
    (rest : List PyTree) :
    hasStarNameAdj (.leaf t v p :: .leaf t' v' p' :: rest) =
      ((t = tok.STAR && t' = tok.NAME) ||
        hasStarNameAdj (.leaf t' v' p' :: rest)) := rfl

theorem countArgsAux_star_iff :
    ∀ {ph : ArgPhase} {b : Bool} {children : List PyTree},
    ArgsWF ph b children →
    ∀ (c : Nat) (s st ss : Bool),
    ((countArgsAux children c s st ss false false).2.2.1 = true ↔
      (st = true ∨ hasStarNameAdj children = true)) := by
  intro ph b children h
  induction h with
  | nil ph b =>
    intro c s st ss
    simp [countArgsAux, hasStarNameAdj]
  | name b v p rest h' ih =>
    intro c s st ss
    rw [countArgsAux_name_step,
        hasStarNameAdj_cons_nonstar _ _
          (by simp [PyTree.typ, tok.NAME, tok.STAR])]
    simp only [Bool.false_eq_true, if_false]
    exact ih _ _ _ _
  | star v p v' p' rest h' ih =>
    intro c s st ss
    rw [countArgsAux_star_step, countArgsAux_name_step]
    simp only [if_true]
    rw [hasStarNameAdj_cons_cons]
    have hlhs := (ih (c + 1)
      (if c = 0 && (v' = "self" || v' = "cls") then true else s) true ss).mpr
      (Or.inl rfl)
    rw [hlhs]
    simp [tok.STAR, tok.NAME]
  | bareStar v p v2 p2 rest h' ih =>
    intro c s st ss
    rw [countArgsAux_star_step, countArgsAux_comma_step,
        hasStarNameAdj_cons_cons,
        hasStarNameAdj_cons_nonstar _ _
          (by simp [PyTree.typ, tok.COMMA, tok.STAR])]
    have hfalse : ((tok.STAR = tok.STAR : Bool) && (tok.COMMA = tok.NAME : Bool)) = false := by
      simp [tok.STAR, tok.COMMA, tok.NAME]
    rw [hfalse, Bool.false_or]
    exact ih _ _ _ _
  | dstar b v p v' p' rest h' ih =>
    intro c s st ss
    rw [countArgsAux_dstar_step, countArgsAux_name_step,
        hasStarNameAdj_cons_cons,
        hasStarNameAdj_cons_nonstar _ _
          (by simp [PyTree.typ, tok.NAME, tok.STAR])]
    have hfalse : ((tok.DOUBLESTAR = tok.STAR : Bool) && (tok.NAME = tok.NAME : Bool)) = false := by
      simp [tok.STAR, tok.DOUBLESTAR]
    rw [hfalse, Bool.false_or]
    simp only [Bool.false_eq_true, if_false]
    exact ih _ _ _ _
  | commaA b v p rest h' ih =>
    intro c s st ss
    rw [countArgsAux_comma_step,
        hasStarNameAdj_cons_nonstar _ _
          (by simp [PyTree.typ, tok.COMMA, tok.STAR])]
    exact ih _ _ _ _
  | commaD b v p rest h' ih =>
    intro c s st ss
    rw [countArgsAux_comma_step,
        hasStarNameAdj_cons_nonstar _ _
          (by simp [PyTree.typ, tok.COMMA, tok.STAR])]
    exact ih _ _ _ _
  | dflt b v p e rest he h' ih =>
    intro c s st ss
    rw [countArgsAux_equal_step, countArgsAux_skip_step,
        hasStarNameAdj_cons_nonstar _ _
          (by simp [PyTree.typ, tok.EQUAL, tok.STAR]),
        hasStarNameAdj_cons_nonstar _ _ he]
    exact ih _ _ _ _

theorem ArgsWF_no_star :
    ∀ {ph : ArgPhase} {b : Bool} {l : List PyTree},
    ArgsWF ph b l → b = true →
    l.all (fun t => !isStarLeaf t) = true := by
  intro ph b l h
  induction h with
  | nil ph b => intro hb; rfl
  | name b v p rest h' ih =>
    intro hb
    rw [List.all_cons, Bool.and_eq_true]
    exact ⟨by simp [isStarLeaf, tok.NAME, tok.STAR], ih hb⟩
  | star v p v' p' rest h' ih =>
    intro hb
    exact absurd hb (by simp)
  | bareStar v p v2 p2 rest h' ih =>
    intro hb
    exact absurd hb (by simp)
  | dstar b v p v' p' rest h' ih =>
    intro hb
    rw [List.all_cons, List.all_cons, Bool.and_eq_true, Bool.and_eq_true]
    exact ⟨by simp [isStarLeaf, tok.DOUBLESTAR, tok.STAR],
      by simp [isStarLeaf, tok.NAME, tok.STAR], ih hb⟩
  | commaA b v p rest h' ih =>
    intro hb
    rw [List.all_cons, Bool.and_eq_true]
    exact ⟨by simp [isStarLeaf, tok.COMMA, tok.STAR], ih hb⟩
  | commaD b v p rest h' ih =>
    intro hb
    rw [List.all_cons, Bool.and_eq_true]
    exact ⟨by simp [isStarLeaf, tok.COMMA, tok.STAR], ih hb⟩
  | dflt b v p e rest he h' ih =>
    intro hb
    rw [List.all_cons, List.all_cons, Bool.and_eq_true, Bool.and_eq_true]
    exact ⟨by simp [isStarLeaf, tok.EQUAL, tok.STAR],
      by simp [isStarLeaf_eq_false e he], ih hb⟩

theorem hasStarNameAdj_eq_false :
    ∀ (l : List PyTree),
    l.all (fun t => !isStarLeaf t) = true → hasStarNameAdj l = false := by
  intro l
  induction l with
  | nil => intro _; rfl
  | cons x xs ih =>
    intro h
    rw [List.all_cons, Bool.and_eq_true] at h
    cases x with
    | node t cs =>
      have hn : hasStarNameAdj (PyTree.node t cs :: xs) = hasStarNameAdj xs := rfl
      rw [hn]
      exact ih h.2
    | leaf t v p =>
      have hx : (PyTree.leaf t v p).typ ≠ tok.STAR := by
        simp only [PyTree.typ]
        intro hc
        have := h.1
        rw [hc] at this
        simp [isStarLeaf] at this
      rw [hasStarNameAdj_cons_nonstar _ xs hx]
      exact ih h.2

theorem ArgsWF_bare_star_no_adj :
    ∀ {ph : ArgPhase} {b : Bool} {children : List PyTree},
    ArgsWF ph b children →
    ∀ (i : Nat) (v p : String),
    children[i]? = some (PyTree.leaf tok.STAR v p) →
    (∀ t, children[i + 1]? = some t →
      ∀ v' p', t ≠ PyTree.leaf tok.NAME v' p') →
    hasStarNameAdj children = false := by
  intro ph b children h
  induction h with
  | nil ph b =>
    intro i v p hi hnext
    rfl
  | name b v0 p0 rest h' ih =>
    intro i v p hi hnext
    rw [hasStarNameAdj_cons_nonstar _ _
      (by simp [PyTree.typ, tok.NAME, tok.STAR])]
    cases i with
    | zero =>
      rw [List.getElem?_cons_zero] at hi
      exfalso
      simp [tok.NAME, tok.STAR] at hi
    | succ j =>
      rw [List.getElem?_cons_succ] at hi
      exact ih j v p hi (fun t ht v' p' =>
        hnext t (by rw [List.getElem?_cons_succ]; exact ht) v' p')
  | star v0 p0 v0' p0' rest h' ih =>
    intro i v p hi hnext
    exfalso
    cases i with
    | zero =>
      exact hnext (PyTree.leaf tok.NAME v0' p0')
        (by rw [List.getElem?_cons_succ, List.getElem?_cons_zero]) v0' p0' rfl
    | succ j =>
      rw [List.getElem?_cons_succ] at hi
      cases j with
      | zero =>
        rw [List.getElem?_cons_zero] at hi
        simp [tok.NAME, tok.STAR] at hi
      | succ k =>
        rw [List.getElem?_cons_succ] at hi
        have hall := ArgsWF_no_star h' rfl
        rw [List.all_eq_true] at hall
        have hmem := List.getElem?_mem hi
        have := hall _ hmem
        simp [isStarLeaf] at this
  | bareStar v0 p0 v2 p2 rest h' ih =>
    intro i v p hi hnext
    rw [hasStarNameAdj_cons_cons,
        hasStarNameAdj_cons_nonstar _ _
          (by simp [PyTree.typ, tok.COMMA, tok.STAR]),
        hasStarNameAdj_eq_false rest (ArgsWF_no_star h' rfl)]
    simp [tok.STAR, tok.COMMA, tok.NAME]
  | dstar b v0 p0 v0' p0' rest h' ih =>
    intro i v p hi hnext
    rw [hasStarNameAdj_cons_cons,
        hasStarNameAdj_cons_nonstar _ _
          (by simp [PyTree.typ, tok.NAME, tok.STAR])]
    cases i with
    | zero =>
      rw [List.getElem?_cons_zero] at hi
      exfalso
      simp [tok.DOUBLESTAR, tok.STAR] at hi
    | succ j =>
      rw [List.getElem?_cons_succ] at hi
      cases j with
      | zero =>
        rw [List.getElem?_cons_zero] at hi
        exfalso
        simp [tok.NAME, tok.STAR] at hi
      | succ k =>
        rw [List.getElem?_cons_succ] at hi
        rw [ih k v p hi (fun t ht v' p' =>
          hnext t (by rw [List.getElem?_cons_succ, List.getElem?_cons_succ]
                      exact ht) v' p')]
        simp [tok.DOUBLESTAR, tok.STAR]
  | commaA b v0 p0 rest h' ih =>
    intro i v p hi hnext
    rw [hasStarNameAdj_cons_nonstar _ _
      (by simp [PyTree.typ, tok.COMMA, tok.STAR])]
    cases i with
    | zero =>
      rw [List.getElem?_cons_zero] at hi
      exfalso
      simp [tok.COMMA, tok.STAR] at hi
    | succ j =>
      rw [List.getElem?_cons_succ] at hi
      exact ih j v p hi (fun t ht v' p' =>
        hnext t (by rw [List.getElem?_cons_succ]; exact ht) v' p')
  | commaD b v0 p0 rest h' ih =>
    intro i v p hi hnext
    rw [hasStarNameAdj_cons_nonstar _ _
      (by simp [PyTree.typ, tok.COMMA, tok.STAR])]
    cases i with
    | zero =>
      rw [List.getElem?_cons_zero] at hi
      exfalso
      simp [tok.COMMA, tok.STAR] at hi
    | succ j =>
      rw [List.getElem?_cons_succ] at hi
      exact ih j v p hi (fun t ht v' p' =>
        hnext t (by rw [List.getElem?_cons_succ]; exact ht) v' p')
  | dflt b v0 p0 e rest he h' ih =>
    intro i v p hi hnext
    rw [hasStarNameAdj_cons_nonstar _ _
          (by simp [PyTree.typ, tok.EQUAL, tok.STAR]),
        hasStarNameAdj_cons_nonstar _ _ he]
    cases i with
    | zero =>
      rw [List.getElem?_cons_zero] at hi
      exfalso
      simp [tok.EQUAL, tok.STAR] at hi
    | succ j =>
      rw [List.getElem?_cons_succ] at hi
      cases j with
      | zero =>
        rw [List.getElem?_cons_zero] at hi
        exfalso
        have he2 : e = PyTree.leaf tok.STAR v p := by injection hi
        rw [he2] at he
        exact he rfl
      | succ k =>
        rw [List.getElem?_cons_succ] at hi
        exact ih k v p hi (fun t ht v' p' =>
          hnext t (by rw [List.getElem?_cons_succ, List.getElem?_cons_succ]
                      exact ht) v' p')

theorem addVariadic_flag_false :
    ∀ (argTypes : List String) (q : Bool),
    (argTypes.foldl
      (fun (p : Bool × Bool) a =>
        if pyStartsWith a "**" then (p.1, false)
        else if pyStartsWith a "*" then (false, p.2)
        else p)
      (false, q)).1 = false := by
  intro argTypes
  induction argTypes with
  | nil => intro q; rfl
  | cons a rest ih =>
    intro q
    rw [List.foldl_cons]
    by_cases h2 : pyStartsWith a "**"
    · rw [if_pos h2]
      exact ih false
    · rw [if_neg h2]
      by_cases h1 : pyStartsWith a "*"
      · rw [if_pos h1]
        exact ih q
      · rw [if_neg h1]
        exact ih q

theorem addVariadicTypes_false_mem (ss : Bool) (argTypes : List String)
    (x : String) (hx : x ∈ (addVariadicTypes false ss argTypes).1) :
    x ∈ argTypes ∨ x = "**Any" := by
  unfold addVariadicTypes at hx
  simp only at hx
  rw [addVariadic_flag_false argTypes ss] at hx
  simp only [Bool.false_eq_true, if_false] at hx
  split at hx
  · rcases List.mem_append.mp hx with h | h
    · exact Or.inl h
    · simp at h
      exact Or.inr h
  · exact Or.inl hx

/-- C10: in a well-formed parameter list, a bare `'*'` separator not
immediately followed by a parameter name leaves the `star` flag of
`count_args` at `False`; the marker itself is never counted (the count is
bounded by the number of `NAME` leaves); hence `process_types` appends no
synthetic `*Any` entry for it; and the flag is `True` only when some `'*'`
token is directly followed by a name. -/
theorem C10_bare_star (ty : Nat) (children : List PyTree) (i : Nat)
    (v p : String)
    (hwf : ArgsWF ArgPhase.start false children)
    (hstar : children[i]? = some (PyTree.leaf tok.STAR v p))
    (hfollow : ∀ t, children[i + 1]? = some t →
      ∀ v' p', t ≠ PyTree.leaf tok.NAME v' p') :
    (countArgs (some (PyTree.node ty children))).2.2.1 = false ∧
    (countArgs (some (PyTree.node ty children))).1 ≤
      children.countP isNameLeaf ∧
    (∀ (ss : Bool) (argTypes : List String), "*Any" ∉ argTypes →
      "*Any" ∉ (addVariadicTypes
        (countArgs (some (PyTree.node ty children))).2.2.1 ss argTypes).1) ∧
    (∀ l : List PyTree, ArgsWF ArgPhase.start false l →
      (countArgs (some (PyTree.node ty l))).2.2.1 = true →
      hasStarNameAdj l = true) := by
  have hcc : countArgs (some (PyTree.node ty children)) =
      countArgsAux children 0 false false false false false := rfl
  have hadj : hasStarNameAdj children = false :=
    ArgsWF_bare_star_no_adj hwf i v p hstar hfollow
  have hiff := countArgsAux_star_iff hwf 0 false false false
  have hfalse : (countArgs (some (PyTree.node ty children))).2.2.1 = false := by
    rw [hcc]
    apply Bool.eq_false_iff.mpr
    intro hc
    rcases hiff.mp hc with h | h
    · exact absurd h (by simp)
    · rw [hadj] at h
      exact absurd h (by simp)
  refine ⟨hfalse, ?_, ?_, ?_⟩
  · rw [hcc]
    simpa using countArgsAux_count_le children 0 false false false false false
  · intro ss argTypes hnot hmem
    rw [hfalse] at hmem
    rcases addVariadicTypes_false_mem ss argTypes _ hmem with h | h
    · exact hnot h
    · exact absurd h (by decide)
  · intro l hl hstar2
    have hiff2 := countArgsAux_star_iff hl 0 false false false
    rw [show countArgs (some (PyTree.node ty l)) =
      countArgsAux l 0 false false false false false from rfl] at hstar2
    rcases hiff2.mp hstar2 with h | h
    · exact absurd h (by simp)
    · exact h

theorem C10_bare_star_witness :
    (countArgs (some (PyTree.node 1000 exC10Children))).2.2.1 = false ∧
    (countArgs (some (PyTree.node 1000 exC10Children))).1 ≤
      exC10Children.countP isNameLeaf ∧
    "*Any" ∉ (addVariadicTypes
      (countArgs (some (PyTree.node 1000 exC10Children))).2.2.1
      true ["int"]).1 := by
  have h := C10_bare_star 1000 exC10Children 2 "*" " "
    (ArgsWF.name false "a" "" _
      (ArgsWF.commaA false "," "" _
        (ArgsWF.bareStar "*" " " "," "" _
          (ArgsWF.name true "b" " " [] (ArgsWF.nil _ _)))))
    rfl
    (by
      intro t ht v' p' heq
      rw [heq] at ht
      rw [show exC10Children[3]? = some (PyTree.leaf tok.COMMA "," "") from rfl]
        at ht
      simp [tok.COMMA, tok.NAME] at ht)
  exact ⟨h.1, h.2.1, h.2.2.1 true ["int"] (by decide)⟩
